import Mathlib

/-!
Shallow embedding of the `nbl-rotations` core (parser.py, rotations.py,
ratings.py) and verification of its specification claims.

Conventions of the embedding:
* Python `int` values are `Int`; clock arithmetic in the source only ever
  produces integral floats (sums of 300/600 and `MM:SS` values), so absolute
  times are `Int`; the possession estimate multiplies by the literal `0.44`
  and is embedded in `ℚ`.
* Python exceptions (`ValueError` from `int(...)`) are `Except String`;
  a raised exception propagates out of every caller, which the embedding
  mirrors with `Except`-monadic code.
* Python `dict` (insertion ordered, key update in place, `del` removes the
  key) is an association list with insert-or-replace-in-place semantics.
-/

namespace NBL

/-! ## String helpers (Python `str.split` and `int`) -/

/-- Python `s.split(sep)` for a one-character separator, on the character
list of the string.  Always returns at least one (possibly empty) part. -/
def splitOn (sep : Char) : List Char → List (List Char)
  | [] => [[]]
  | c :: rest =>
    match splitOn sep rest with
    | [] => [[c]]
    | g :: gs => if c = sep then [] :: g :: gs else (c :: g) :: gs

/-- Value of a nonempty all-digit character list, `none` otherwise. -/
def digitsToNat (cs : List Char) : Option Nat :=
  if cs.all Char.isDigit && !cs.isEmpty then
    some (cs.foldl (fun acc c => 10 * acc + (c.toNat - 48)) 0)
  else
    none

/-- Python `int()` applied to a string slice: optional surrounding
whitespace, an optional sign, then one or more decimal digits; anything
else raises `ValueError` (embedded as `Except.error`).  Python's
underscore digit-grouping extension is not modelled; no clock feed uses it. -/
def pyInt (cs : List Char) : Except String Int :=
  let t := ((cs.dropWhile Char.isWhitespace).reverse.dropWhile Char.isWhitespace).reverse
  match t with
  | '-' :: ds =>
    match digitsToNat ds with
    | some n => .ok (-(n : Int))
    | none => .error "invalid literal for int"
  | '+' :: ds =>
    match digitsToNat ds with
    | some n => .ok (n : Int)
    | none => .error "invalid literal for int"
  | ds =>
    match digitsToNat ds with
    | some n => .ok (n : Int)
    | none => .error "invalid literal for int"

instance {ε α : Type} [DecidableEq ε] [DecidableEq α] : DecidableEq (Except ε α) := fun x y =>
  match x, y with
  | .ok a, .ok b =>
    if h : a = b then .isTrue (by rw [h]) else .isFalse (fun hh => by cases hh; exact h rfl)
  | .error a, .error b =>
    if h : a = b then .isTrue (by rw [h]) else .isFalse (fun hh => by cases hh; exact h rfl)
  | .ok _, .error _ => .isFalse (fun hh => by cases hh)
  | .error _, .ok _ => .isFalse (fun hh => by cases hh)

/-! ## Data model (parser.py) -/

/-- A raw play-by-play entry, before parsing into `Event`: the fields of the
vendor JSON dict that `_fix_period_numbers` reads (`actionNumber`,
`actionType`, `subType`) and writes (`period`). -/
structure RawEvent where
  actionNumber : Int
  actionType : String
  subType : String
  period : Int
  deriving Repr, DecidableEq

/-- The `Player` dataclass from parser.py. -/
structure Player where
  shirt_number : String
  name : String
  is_starter : Bool
  team_number : Int
  stats_minutes : String
  deriving Repr, DecidableEq

/-- The `Event` dataclass from parser.py. -/
structure Event where
  action_number : Int
  game_time : String
  period : Int
  team_number : Int
  action_type : String
  sub_type : String
  success : Int
  score1 : Int
  score2 : Int
  shirt_number : String
  player_name : String
  deriving Repr, DecidableEq

/-- The `GameData` dataclass from parser.py. -/
structure GameData where
  game_id : String
  team1_name : String
  team2_name : String
  team1_code : String
  team2_code : String
  final_score1 : Int
  final_score2 : Int
  num_periods : Int
  players : List Player
  events : List Event
  deriving Repr, DecidableEq

/-- Function `parse_time_to_seconds` from parser.py.  `gt` is countdown time within
the period; OT periods (5+) last 300 s, regulation quarters
`period_duration` (600 at every call site).  `parts[0]` always exists
because `str.split` returns at least one part; `headD`/`getD` encode the
same total accesses. -/
def parse_time_to_seconds (gt : String) (period : Int) (period_duration : Int) :
    Except String Int := do
  let parts := splitOn ':' gt.data
  let minutes ← pyInt (parts.headD [])
  let seconds ← if parts.length > 1 then pyInt (parts.getD 1 []) else pure 0
  let remaining := minutes * 60 + seconds
  let current_duration := if period ≥ 5 then 300 else period_duration
  let elapsed_in_period := current_duration - remaining
  let total_before := (List.range' 1 (period - 1).toNat).foldl
    (fun acc p => acc + if p ≥ 5 then 300 else period_duration) 0
  pure (total_before + elapsed_in_period)

/-- Function `_fix_period_numbers` from parser.py.  The Python counter loop
`for end_an in period_ends: if an > end_an: real_period += 1` is the
length of the filtered list. -/
def fix_period_numbers (pbp : List RawEvent) : List RawEvent :=
  let sorted_pbp := pbp.mergeSort (fun a b => decide (a.actionNumber ≤ b.actionNumber))
  let period_ends := (sorted_pbp.filter
    (fun e => e.actionType == "period" && e.subType == "end")).map (fun e => e.actionNumber)
  if period_ends.length ≤ 4 then pbp
  else
    let num_real_periods : Int := period_ends.length
    pbp.map (fun e =>
      let real_period : Int :=
        1 + (period_ends.filter (fun end_an => decide (e.actionNumber > end_an))).length
      { e with period := min real_period num_real_periods })

/-- Action numbers of the period-end boundary events of a stream, in stream
order (the claim's "period-end boundary events", counted without sorting;
`fix_period_numbers` collects them from the sorted stream, which has the
same multiset). -/
def period_end_numbers (pbp : List RawEvent) : List Int :=
  (pbp.filter (fun e => e.actionType == "period" && e.subType == "end")).map
    (fun e => e.actionNumber)

/-- Period number an event receives from the correction pass: 1 plus the
number of period-end boundaries with strictly smaller action number, capped
at the total number of boundaries. -/
def reassigned_period (pbp : List RawEvent) (e : RawEvent) : Int :=
  min ((1 : Int) + ((period_end_numbers pbp).filter
        (fun end_an => decide (e.actionNumber > end_an))).length)
    ((period_end_numbers pbp).length : Int)

/-- C1: with more than 4 period-end boundaries, the correction pass rewrites
every event's period to 1 plus the count of boundaries with strictly smaller
sequence number, capped at the number of boundaries; with 4 or fewer
boundaries the stream is returned unchanged. -/
theorem fix_period_numbers_reassigns (pbp : List RawEvent) :
    (4 < (period_end_numbers pbp).length →
      fix_period_numbers pbp =
        pbp.map (fun e => { e with period := reassigned_period pbp e })) ∧
    ((period_end_numbers pbp).length ≤ 4 → fix_period_numbers pbp = pbp) := by
  have hperm : List.Perm
      (((pbp.mergeSort (fun a b => decide (a.actionNumber ≤ b.actionNumber))).filter
        (fun e => e.actionType == "period" && e.subType == "end")).map (fun e => e.actionNumber))
      (period_end_numbers pbp) :=
    (((List.mergeSort_perm pbp _).filter _).map _)
  have hlen := hperm.length_eq
  constructor
  · intro h
    unfold fix_period_numbers
    rw [if_neg (by omega)]
    apply List.map_congr_left
    intro e _
    have hf := (hperm.filter (fun end_an => decide (e.actionNumber > end_an))).length_eq
    simp only [reassigned_period, hlen, hf]
  · intro h
    unfold fix_period_numbers
    rw [if_pos (by omega)]

/-- Synthetic five-period stream whose OT events misreport period 1
(boundary events at action numbers 2, 4, 5, 6, 8). -/
def otPbp : List RawEvent :=
  [⟨1, "game", "start", 1⟩, ⟨2, "period", "end", 1⟩, ⟨3, "substitution", "in", 1⟩,
   ⟨4, "period", "end", 2⟩, ⟨5, "period", "end", 3⟩, ⟨6, "period", "end", 4⟩,
   ⟨7, "2pt", "", 1⟩, ⟨8, "period", "end", 1⟩, ⟨9, "game", "end", 1⟩]

/-- Regulation stream with a single period-end boundary. -/
def regulationPbp : List RawEvent :=
  [⟨1, "game", "start", 1⟩, ⟨2, "2pt", "", 1⟩, ⟨3, "period", "end", 1⟩]

/-- Witness for `fix_period_numbers_reassigns` at concrete streams. -/
theorem fix_period_numbers_reassigns_witness :
    (4 < (period_end_numbers otPbp).length ∧
      fix_period_numbers otPbp =
        otPbp.map (fun e => { e with period := reassigned_period otPbp e })) ∧
    ((period_end_numbers regulationPbp).length ≤ 4 ∧
      fix_period_numbers regulationPbp = regulationPbp) :=
  ⟨⟨by decide, (fix_period_numbers_reassigns otPbp).1 (by decide)⟩,
   ⟨by decide, (fix_period_numbers_reassigns regulationPbp).2 (by decide)⟩⟩

/-- C4: the worked clock examples of the spec hold of `parse_time_to_seconds`
with the default 600-second regulation period: "10:00" in period 1 is second
0, "00:00" in period 1 is second 600, and "05:00" in period 5 is second 2400
(zero elapsed in the first overtime). -/
theorem clock_worked_examples :
    parse_time_to_seconds "10:00" 1 600 = .ok 0 ∧
    parse_time_to_seconds "00:00" 1 600 = .ok 600 ∧
    parse_time_to_seconds "05:00" 5 600 = .ok 2400 :=
  ⟨by decide, by decide, by decide⟩

/-- C10 counterexample: the clock string "10" contains no colon, yet
`parse_time_to_seconds` accepts it as 10 minutes with 0 seconds (the source
defaults the seconds part when no colon is present) instead of failing, so a
colon-free clock string is not always a fatal error. -/
theorem no_colon_clock_parses_cex :
    ("10".data.contains ':') = false ∧
    parse_time_to_seconds "10" 1 600 = .ok 0 :=
  ⟨by decide, by decide⟩

/-- C10 (amended): computing an event's absolute time fails exactly when a
consumed clock component is non-numeric for Python `int()` — the part before
the first colon, or the part after it when a colon is present.  A colon-free
numeric string is accepted as whole minutes with zero seconds, not rejected. -/
theorem malformed_clock_errors (gt : String) (period period_duration : Int) :
    (∃ msg, parse_time_to_seconds gt period period_duration = .error msg) ↔
    ((∃ m, pyInt ((splitOn ':' gt.data).headD []) = .error m) ∨
     ((splitOn ':' gt.data).length > 1 ∧
       ∃ m, pyInt ((splitOn ':' gt.data).getD 1 []) = .error m)) := by
  unfold parse_time_to_seconds
  cases h0 : pyInt ((splitOn ':' gt.data).headD []) with
  | error m =>
    simp only [Bind.bind, Except.bind, h0]
    simp [h0]
  | ok v =>
    simp only [Bind.bind, Except.bind, h0]
    by_cases hl : (splitOn ':' gt.data).length > 1
    · cases h1 : pyInt ((splitOn ':' gt.data).getD 1 []) with
      | error m =>
        simp only [if_pos hl, h1]
        simp [h0, hl, h1]
      | ok w =>
        simp only [if_pos hl, h1]
        simp [h0, hl, h1, pure, Except.pure]
    · simp only [if_neg hl]
      simp [h0, hl, pure, Except.pure]

/-! ## Python dict as an insertion-ordered association list -/

/-- Python `d[k]` / `k in d`: first (unique) binding of `k`. -/
def dictGet (k : String) : List (String × α) → Option α
  | [] => none
  | kv :: rest => if kv.1 = k then some kv.2 else dictGet k rest

/-- Python `d[k] = v`: replace in place when the key exists, else append
(insertion order). -/
def dictInsert (k : String) (v : α) : List (String × α) → List (String × α)
  | [] => [(k, v)]
  | kv :: rest => if kv.1 = k then (k, v) :: rest else kv :: dictInsert k v rest

/-- Python `del d[k]`: drop the (unique) binding of `k`. -/
def dictErase (k : String) : List (String × α) → List (String × α)
  | [] => []
  | kv :: rest => if kv.1 = k then rest else kv :: dictErase k rest

/-! ## Rotation model (rotations.py) -/

/-- The `Stint` dataclass from rotations.py. -/
structure Stint where
  shirt_number : String
  player_name : String
  team_number : Int
  period_in : Int
  period_out : Int
  time_in : Int
  time_out : Int
  score_team_in : Int
  score_opp_in : Int
  score_team_out : Int
  score_opp_out : Int
  deriving Repr, DecidableEq

/-- The `Stint.duration` property. -/
def Stint.duration (s : Stint) : Int := s.time_out - s.time_in

/-- The `Stint.plus_minus` property. -/
def Stint.plus_minus (s : Stint) : Int :=
  (s.score_team_out - s.score_team_in) - (s.score_opp_out - s.score_opp_in)

/-- The `PlayerRotation` dataclass from rotations.py. -/
structure PlayerRotation where
  shirt_number : String
  player_name : String
  team_number : Int
  is_starter : Bool
  total_seconds : Int
  stints : List Stint
  deriving Repr, DecidableEq

/-- Function `_period_end_seconds` from rotations.py: absolute seconds at the end of
a given period (600 s for periods 1-4, 300 s for periods 5 and later). -/
def period_end_seconds (period : Int) : Int :=
  (List.range' 1 period.toNat).foldl (fun acc p => acc + if p ≥ 5 then 300 else 600) 0

/-- Function `_current_score_for_team` from rotations.py. -/
def current_score_for_team (score1 score2 : Int) (team_number : Int) : Int × Int :=
  if team_number = 1 then (score1, score2) else (score2, score1)

/-- Entry data of an open stint (the `stint_start[sn]` dict in the source). -/
structure StartInfo where
  time : Int
  period : Int
  score_team : Int
  score_opp : Int
  deriving Repr, DecidableEq

/-- Mutable state of the per-team event loop of `calculate_rotations`:
the `on_court` and `stint_start` dicts, the last known score, and the
stints emitted so far.  The source appends each emitted stint to
`rotations[sn].stints` at emission time; since those per-player lists are
only ever appended to, they are recovered after the loop by filtering the
global emission sequence per shirt number (`attach_stints`), which yields
the same lists in the same order. -/
structure TeamState where
  on_court : List (String × Bool)
  stint_start : List (String × StartInfo)
  stints : List Stint
  last_score1 : Int
  last_score2 : Int
  deriving Repr, DecidableEq

/-- A fresh `PlayerRotation` for a roster player. -/
def make_rotation (tno : Int) (p : Player) : PlayerRotation :=
  { shirt_number := p.shirt_number, player_name := p.name, team_number := tno,
    is_starter := p.is_starter, total_seconds := 0, stints := [] }

/-- The `rotations` dict of `calculate_rotations`, built from the team's
roster before the event loop. -/
def build_rotations (tno : Int) (team_players : List Player) :
    List (String × PlayerRotation) :=
  team_players.foldl (fun acc p => dictInsert p.shirt_number (make_rotation tno p) acc) []

/-- Starter initialization of `calculate_rotations`, one roster player at a
time: a starter is put on court at absolute time 0 in period 1 with score
0-0. -/
def init_player (st : TeamState) (p : Player) : TeamState :=
  if p.is_starter then
    { st with on_court := dictInsert p.shirt_number true st.on_court,
              stint_start := dictInsert p.shirt_number ⟨0, 1, 0, 0⟩ st.stint_start }
  else st

/-- Starter initialization of `calculate_rotations`: every starter is
on court at absolute time 0 in period 1 with score 0-0. -/
def init_team_state (team_players : List Player) : TeamState :=
  team_players.foldl init_player ⟨[], [], [], 0, 0⟩

/-- Substitution handling of one event-loop iteration of
`calculate_rotations`, on the state whose score snapshot was already
updated.  A substitution event's clock is parsed before the sub-type
dispatch, exactly as in the source, so a malformed clock raises out of the
loop. -/
def substitution_step (tno : Int) (rotations0 : List (String × PlayerRotation))
    (st : TeamState) (event : Event) : Except String TeamState := do
  if event.action_type == "substitution" && event.team_number == tno then
    let abs_time ← parse_time_to_seconds event.game_time event.period 600
    let ts := current_score_for_team st.last_score1 st.last_score2 tno
    if event.sub_type == "out" && (dictGet event.shirt_number st.on_court).isSome then
      let sn := event.shirt_number
      let st1 :=
        match dictGet sn st.stint_start with
        | some start =>
          let stint : Stint :=
            { shirt_number := sn,
              player_name :=
                match dictGet sn rotations0 with
                | some pr => pr.player_name
                | none => event.player_name,
              team_number := tno, period_in := start.period, period_out := event.period,
              time_in := start.time, time_out := abs_time,
              score_team_in := start.score_team, score_opp_in := start.score_opp,
              score_team_out := ts.1, score_opp_out := ts.2 }
          let st2 := if (dictGet sn rotations0).isSome
            then { st with stints := st.stints ++ [stint] } else st
          { st2 with stint_start := dictErase sn st2.stint_start }
        | none => st
      pure { st1 with on_court := dictErase sn st1.on_court }
    else if event.sub_type == "in" then
      let sn := event.shirt_number
      pure { st with on_court := dictInsert sn true st.on_court,
                     stint_start := dictInsert sn ⟨abs_time, event.period, ts.1, ts.2⟩ st.stint_start }
    else
      pure st
  else
    pure st

/-- One iteration of the event loop of `calculate_rotations` for team `tno`:
update the last known score from the event, then handle substitutions. -/
def rotations_step (tno : Int) (rotations0 : List (String × PlayerRotation))
    (st : TeamState) (event : Event) : Except String TeamState :=
  substitution_step tno rotations0
    (if event.score1 + event.score2 > 0 then
      { st with last_score1 := event.score1, last_score2 := event.score2 }
     else st)
    event

/-- The stint built by the closing loop of `calculate_rotations` for one
still-open entry: closed at the game's absolute end time with the final
recorded score. -/
def closing_stint (game : GameData) (tno : Int)
    (rotations0 : List (String × PlayerRotation)) (kv : String × StartInfo) : Stint :=
  { shirt_number := kv.1,
    player_name :=
      match dictGet kv.1 rotations0 with
      | some pr => pr.player_name
      | none => kv.1,
    team_number := tno, period_in := kv.2.period, period_out := game.num_periods,
    time_in := kv.2.time, time_out := period_end_seconds game.num_periods,
    score_team_in := kv.2.score_team, score_opp_in := kv.2.score_opp,
    score_team_out := (current_score_for_team game.final_score1 game.final_score2 tno).1,
    score_opp_out := (current_score_for_team game.final_score1 game.final_score2 tno).2 }

/-- Closing loop of `calculate_rotations`: every still-open stint is closed
at the game's absolute end time with the final recorded score.  The source
builds each stint and appends it only when the shirt belongs to the roster
dict; filtering the open entries first emits the same stints. -/
def close_open_stints (game : GameData) (tno : Int)
    (rotations0 : List (String × PlayerRotation)) (final : TeamState) : List Stint :=
  (final.stint_start.filter (fun kv => (dictGet kv.1 rotations0).isSome)).map
    (closing_stint game tno rotations0)

/-- Recover every roster player's stint list and `total_seconds` from the
global emission sequence (see `TeamState`); `total_seconds` is the sum of
the player's stint durations as in the source. -/
def attach_stints (rotations0 : List (String × PlayerRotation)) (all_stints : List Stint) :
    List (String × PlayerRotation) :=
  rotations0.map (fun kv =>
    let ss := all_stints.filter (fun s => s.shirt_number == kv.1)
    (kv.1, { kv.2 with stints := ss, total_seconds := (ss.map Stint.duration).sum }))

/-- Sort relation of the final `sorted(..., key=lambda r: -r.total_seconds)`
calls: total seconds nonincreasing.  Python's `sorted` is the unique stable
sort for this total preorder, which `List.insertionSort` realizes. -/
def rotGE (a b : PlayerRotation) : Prop := b.total_seconds ≤ a.total_seconds

instance : DecidableRel rotGE := fun a b =>
  inferInstanceAs (Decidable (b.total_seconds ≤ a.total_seconds))

instance : IsTotal PlayerRotation rotGE :=
  ⟨fun a b => (le_total b.total_seconds a.total_seconds).imp id id⟩

instance : IsTrans PlayerRotation rotGE :=
  ⟨fun _ _ _ hab hbc => le_trans hbc hab⟩

/-- Roster slice of one team (`team_players` in `calculate_rotations`). -/
def team_players (game : GameData) (tno : Int) : List Player :=
  game.players.filter (fun p => p.team_number == tno)

/-- Event loop of `calculate_rotations` for one team: starter initialization
followed by processing every event in stream order. -/
def team_fold (game : GameData) (tno : Int) : Except String TeamState :=
  game.events.foldlM
    (rotations_step tno (build_rotations tno (team_players game tno)))
    (init_team_state (team_players game tno))

/-- All stints of one team in emission order: the event-loop emissions
followed by the closing stints of the players still on court. -/
def team_all_stints (game : GameData) (tno : Int) (final : TeamState) : List Stint :=
  final.stints ++ close_open_stints game tno (build_rotations tno (team_players game tno)) final

/-- The team's `rotations.values()` after the loops, in dict insertion
(= roster) order, with stints attached and `total_seconds` computed. -/
def team_values (game : GameData) (tno : Int) : Except String (List PlayerRotation) := do
  let final ← team_fold game tno
  pure ((attach_stints (build_rotations tno (team_players game tno))
    (team_all_stints game tno final)).map (fun kv => kv.2))

/-- Per-team body of `calculate_rotations`: roster filtering, starter
initialization, the event loop, the closing loop, total seconds, and the
final starters-then-bench ordering. -/
def team_rotations (game : GameData) (tno : Int) : Except String (List PlayerRotation) := do
  let values ← team_values game tno
  let starters := List.insertionSort rotGE (values.filter (fun r => r.is_starter))
  let bench := List.insertionSort rotGE
    (values.filter (fun r => !r.is_starter && decide (0 < r.total_seconds)))
  pure (starters ++ bench)

/-- Function `calculate_rotations` from rotations.py: the per-team results for the
two team numbers (the `{1: [...], 2: [...]}` dict of the source). -/
def calculate_rotations (game : GameData) :
    Except String (List PlayerRotation × List PlayerRotation) := do
  let t1 ← team_rotations game 1
  let t2 ← team_rotations game 2
  pure (t1, t2)

/-- The last-known-score accumulator threaded through the event loop
(`last_score1, last_score2` in the source): an event with a positive score
total replaces the snapshot, any other event carries it forward. -/
def last_score (events : List Event) : Int × Int :=
  events.foldl
    (fun acc e => if e.score1 + e.score2 > 0 then (e.score1, e.score2) else acc) (0, 0)

/-- Modelled from the spec for comparison with the code (refinement check
only, not part of the source): the claimed snapshot rule that accepts an
event's score only when it is present and its total is non-decreasing
relative to the previously accepted snapshot. -/
def spec_last_score (events : List Event) : Int × Int :=
  events.foldl
    (fun acc e =>
      if e.score1 + e.score2 > 0 ∧ acc.1 + acc.2 ≤ e.score1 + e.score2 then
        (e.score1, e.score2)
      else acc)
    (0, 0)

/-! ## Rating model (ratings.py) -/

/-- The `StintRating` dataclass from ratings.py. -/
structure StintRating where
  possessions : ℚ
  points_for : Int
  points_against : Int
  ortg : ℚ
  drtg : ℚ
  deriving Repr, DecidableEq

/-- The `PlayerRating` dataclass from ratings.py. -/
structure PlayerRating where
  shirt_number : String
  player_name : String
  team_number : Int
  total_seconds : Int
  total_possessions : ℚ
  total_points_for : Int
  total_points_against : Int
  ortg : ℚ
  drtg : ℚ
  net_rating : ℚ
  deriving Repr, DecidableEq

/-- Running counters of `_count_possessions_in_range`. -/
structure PossCounts where
  fga : Int
  oreb : Int
  tov : Int
  fta : Int
  deriving Repr, DecidableEq

/-- Loop body of `_count_possessions_in_range` for one event (the Python
`continue` statements are the `pure c` branches; `tov` is the source's `to`
counter). -/
def poss_step (team_number time_start time_end : Int) (c : PossCounts) (e : Event) :
    Except String PossCounts := do
  if e.team_number ≠ team_number then pure c
  else
    let abs_time ← parse_time_to_seconds e.game_time e.period 600
    if abs_time < time_start ∨ abs_time > time_end then pure c
    else if e.action_type = "2pt" ∨ e.action_type = "3pt" then pure { c with fga := c.fga + 1 }
    else if e.action_type = "freethrow" then pure { c with fta := c.fta + 1 }
    else if e.action_type = "rebound" ∧ e.sub_type = "offensive" then
      pure { c with oreb := c.oreb + 1 }
    else if e.action_type = "turnover" then pure { c with tov := c.tov + 1 }
    else pure c

/-- Function `_count_possessions_in_range` from ratings.py:
possessions = FGA - OREB + TO + 0.44 * FTA over the events of the team
whose absolute time lies in `[time_start, time_end]`, both ends inclusive. -/
def count_possessions_in_range (events : List Event) (team_number time_start time_end : Int) :
    Except String ℚ := do
  let c ← events.foldlM (poss_step team_number time_start time_end) ⟨0, 0, 0, 0⟩
  pure ((c.fga : ℚ) - (c.oreb : ℚ) + (c.tov : ℚ) + 0.44 * (c.fta : ℚ))

/-- Function `calculate_stint_rating` from ratings.py. -/
def calculate_stint_rating (stint : Stint) (events : List Event) :
    Except String StintRating := do
  let points_for := stint.score_team_out - stint.score_team_in
  let points_against := stint.score_opp_out - stint.score_opp_in
  let team_poss ← count_possessions_in_range events stint.team_number stint.time_in stint.time_out
  let opp_tno : Int := if stint.team_number = 1 then 2 else 1
  let opp_poss ← count_possessions_in_range events opp_tno stint.time_in stint.time_out
  let ortg : ℚ := if 0 < team_poss then ((points_for : ℚ) / team_poss) * 100 else 0
  let drtg : ℚ := if 0 < opp_poss then ((points_against : ℚ) / opp_poss) * 100 else 0
  pure { possessions := team_poss, points_for := points_for,
         points_against := points_against, ortg := ortg, drtg := drtg }

/-- Accumulation of one stint's rating into a player's running
(possessions, points for, points against) totals. -/
def rating_totals_step (game : GameData) (t : ℚ × Int × Int) (stint : Stint) :
    Except String (ℚ × Int × Int) := do
  let sr ← calculate_stint_rating stint game.events
  pure (t.1 + sr.possessions, t.2.1 + sr.points_for, t.2.2 + sr.points_against)

/-- Per-player body of `calculate_player_ratings`: accumulate possessions
and points over the player's stints, then fill the ratings when the
possession total is positive (they keep their zero defaults otherwise). -/
def build_player_rating (tno : Int) (game : GameData) (pr : PlayerRotation) :
    Except String PlayerRating := do
  let totals ← pr.stints.foldlM (rating_totals_step game) (0, 0, 0)
  let base : PlayerRating :=
    { shirt_number := pr.shirt_number, player_name := pr.player_name, team_number := tno,
      total_seconds := pr.total_seconds, total_possessions := totals.1,
      total_points_for := totals.2.1, total_points_against := totals.2.2,
      ortg := 0, drtg := 0, net_rating := 0 }
  if 0 < base.total_possessions then
    let ortg : ℚ := ((base.total_points_for : ℚ) / base.total_possessions) * 100
    let drtg : ℚ := ((base.total_points_against : ℚ) / base.total_possessions) * 100
    pure { base with ortg := ortg, drtg := drtg, net_rating := ortg - drtg }
  else
    pure base

/-- Function `calculate_player_ratings` from ratings.py, over the rotations dict
represented as an association list of team number to player list. -/
def calculate_player_ratings (rotations : List (Int × List PlayerRotation))
    (game : GameData) : Except String (List (Int × List PlayerRating)) :=
  rotations.mapM (fun kv => do
    let ratings ← kv.2.mapM (build_player_rating kv.1 game)
    pure (kv.1, ratings))

/-! ## Association-list (Python dict) lemmas -/

theorem dictGet_mem {α : Type} {k : String} {v : α} {d : List (String × α)}
    (h : dictGet k d = some v) : (k, v) ∈ d := by
  induction d with
  | nil => simp [dictGet] at h
  | cons kv rest ih =>
    rw [dictGet] at h
    by_cases hk : kv.1 = k
    · simp only [if_pos hk, Option.some.injEq] at h
      exact List.mem_cons.mpr (Or.inl (by cases kv; simp_all))
    · rw [if_neg hk] at h
      exact List.mem_cons_of_mem _ (ih h)

theorem mem_dictErase {α : Type} {k : String} {kv' : String × α} {d : List (String × α)}
    (h : kv' ∈ dictErase k d) : kv' ∈ d := by
  induction d with
  | nil => simp [dictErase] at h
  | cons kv rest ih =>
    rw [dictErase] at h
    by_cases hk : kv.1 = k
    · rw [if_pos hk] at h
      exact List.mem_cons_of_mem _ h
    · rw [if_neg hk] at h
      rcases List.mem_cons.mp h with h | h
      · exact h ▸ List.mem_cons_self _ _
      · exact List.mem_cons_of_mem _ (ih h)

theorem mem_dictInsert {α : Type} {k : String} {v : α} {kv' : String × α}
    {d : List (String × α)} (h : kv' ∈ dictInsert k v d) : kv' = (k, v) ∨ kv' ∈ d := by
  induction d with
  | nil => simp [dictInsert] at h; exact Or.inl h
  | cons kv rest ih =>
    rw [dictInsert] at h
    by_cases hk : kv.1 = k
    · rw [if_pos hk] at h
      rcases List.mem_cons.mp h with h | h
      · exact Or.inl h
      · exact Or.inr (List.mem_cons_of_mem _ h)
    · rw [if_neg hk] at h
      rcases List.mem_cons.mp h with h | h
      · exact Or.inr (h ▸ List.mem_cons_self _ _)
      · rcases ih h with h | h
        · exact Or.inl h
        · exact Or.inr (List.mem_cons_of_mem _ h)

/-! ## Event-loop lemmas -/

/-- Invariant preservation through the `Except`-monadic event fold. -/
theorem foldlM_except_invariant {σ α : Type} (f : σ → α → Except String σ)
    (P : σ → List α → Prop)
    (hstep : ∀ st e rest st', P st (e :: rest) → f st e = .ok st' → P st' rest) :
    ∀ (l : List α) (st st' : σ), P st l → l.foldlM f st = .ok st' → P st' [] := by
  intro l
  induction l with
  | nil =>
    intro st st' hP h
    simp only [List.foldlM_nil, pure, Except.pure] at h
    cases h
    exact hP
  | cons e rest ih =>
    intro st st' hP h
    rw [List.foldlM_cons] at h
    cases hf : f st e with
    | error m => rw [hf] at h; simp [Bind.bind, Except.bind] at h
    | ok st1 =>
      rw [hf] at h
      simp only [Bind.bind, Except.bind] at h
      exact ih st1 st' (hstep st e rest st1 hP hf) h

/-- The substitution dispatch never touches the score snapshot fields. -/
theorem substitution_step_score (tno : Int) (rots : List (String × PlayerRotation))
    (st : TeamState) (e : Event) (st' : TeamState)
    (h : substitution_step tno rots st e = .ok st') :
    st'.last_score1 = st.last_score1 ∧ st'.last_score2 = st.last_score2 := by
  unfold substitution_step at h
  by_cases hteam : (e.action_type == "substitution" && e.team_number == tno) = true
  · simp only [hteam, if_true, ite_true, Bind.bind, Except.bind] at h
    cases hp : parse_time_to_seconds e.game_time e.period 600 with
    | error m => rw [hp] at h; cases h
    | ok t =>
      rw [hp] at h
      by_cases hout : (e.sub_type == "out" && (dictGet e.shirt_number st.on_court).isSome) = true
      · simp only [hout, if_true, ite_true] at h
        cases hss : dictGet e.shirt_number st.stint_start with
        | some start =>
          rw [hss] at h
          by_cases hr : (dictGet e.shirt_number rots).isSome
          · simp only [hr, if_true, ite_true, pure, Except.pure] at h
            cases h
            exact ⟨rfl, rfl⟩
          · simp only [hr, if_false, ite_false, pure, Except.pure] at h
            cases h
            exact ⟨rfl, rfl⟩
        | none =>
          rw [hss] at h
          simp only [pure, Except.pure] at h
          cases h
          exact ⟨rfl, rfl⟩
      · simp only [hout, if_false, ite_false] at h
        by_cases hin : (e.sub_type == "in") = true
        · simp only [hin, if_true, ite_true, pure, Except.pure] at h
          cases h
          exact ⟨rfl, rfl⟩
        · simp only [hin, if_false, ite_false, pure, Except.pure] at h
          cases h
          exact ⟨rfl, rfl⟩
  · simp only [hteam, if_false, ite_false, pure, Except.pure] at h
    cases h
    exact ⟨rfl, rfl⟩

/-- One loop iteration updates the score snapshot exactly by the
positive-total rule. -/
theorem rotations_step_score (tno : Int) (rots : List (String × PlayerRotation))
    (st : TeamState) (e : Event) (st' : TeamState)
    (h : rotations_step tno rots st e = .ok st') :
    (st'.last_score1, st'.last_score2) =
      if e.score1 + e.score2 > 0 then (e.score1, e.score2)
      else (st.last_score1, st.last_score2) := by
  unfold rotations_step at h
  by_cases hs : e.score1 + e.score2 > 0
  · rw [if_pos hs] at h ⊢
    obtain ⟨h1, h2⟩ := substitution_step_score _ _ _ _ _ h
    rw [h1, h2]
  · rw [if_neg hs] at h ⊢
    obtain ⟨h1, h2⟩ := substitution_step_score _ _ _ _ _ h
    rw [h1, h2]

/-- The score snapshot after the whole loop is the fold of the
positive-total rule over the processed events. -/
theorem team_fold_scores (tno : Int) (rots : List (String × PlayerRotation)) :
    ∀ (events : List Event) (st st' : TeamState),
      events.foldlM (rotations_step tno rots) st = .ok st' →
      (st'.last_score1, st'.last_score2) =
        events.foldl
          (fun acc e => if e.score1 + e.score2 > 0 then (e.score1, e.score2) else acc)
          (st.last_score1, st.last_score2) := by
  intro events
  induction events with
  | nil =>
    intro st st' h
    simp only [List.foldlM_nil, pure, Except.pure] at h
    cases h
    rfl
  | cons e rest ih =>
    intro st st' h
    rw [List.foldlM_cons] at h
    cases hf : rotations_step tno rots st e with
    | error m => rw [hf] at h; simp [Bind.bind, Except.bind] at h
    | ok st1 =>
      rw [hf] at h
      simp only [Bind.bind, Except.bind] at h
      rw [List.foldl_cons]
      have hsc := rotations_step_score _ _ _ _ _ hf
      rw [ih st1 st' h, hsc]

/-- A keep-the-last-accepted fold is the last element of the filtered list. -/
theorem foldl_snapshot_getLast (p : Event → Bool) (g : Event → Int × Int) :
    ∀ (events : List Event) (acc : Int × Int),
      events.foldl (fun a e => if p e then g e else a) acc =
        ((events.filter p).getLast?).elim acc g := by
  intro events
  induction events with
  | nil => intro acc; rfl
  | cons e rest ih =>
    intro acc
    rw [List.foldl_cons]
    by_cases hp : p e
    · rw [if_pos hp, List.filter_cons_of_pos hp, ih (g e)]
      cases hfr : (rest.filter p).getLast? with
      | none =>
        have hnil : rest.filter p = [] := List.getLast?_eq_none_iff.mp hfr
        rw [hnil]
        rfl
      | some x =>
        cases hfp : rest.filter p with
        | nil => rw [hfp] at hfr; cases hfr
        | cons y ys =>
          rw [List.getLast?_cons_cons, ← hfp, hfr]
          rfl
    · rw [if_neg hp, List.filter_cons_of_neg hp, ih acc]

/-- Starter initialization leaves the score snapshot at 0-0. -/
theorem init_team_state_scores (ps : List Player) :
    (init_team_state ps).last_score1 = 0 ∧ (init_team_state ps).last_score2 = 0 := by
  have key : ∀ (l : List Player) (st : TeamState),
      (l.foldl init_player st).last_score1 = st.last_score1 ∧
      (l.foldl init_player st).last_score2 = st.last_score2 := by
    intro l
    induction l with
    | nil => intro st; exact ⟨rfl, rfl⟩
    | cons p rest ih =>
      intro st
      rw [List.foldl_cons]
      refine ((ih (init_player st p)).imp (fun h => h.trans ?_) (fun h => h.trans ?_)) <;>
        (unfold init_player; by_cases hp : p.is_starter = true)
      · rw [if_pos hp]
      · rw [if_neg hp]
      · rw [if_pos hp]
      · rw [if_neg hp]
  exact key _ _

/-! ## Concrete games used by counterexamples and witnesses -/

/-- Starter Alice, shirt 7, team 1. -/
def pAlice : Player := ⟨"7", "Alice", true, 1, ""⟩

/-- Bench player Bob, shirt 9, team 1. -/
def pBob : Player := ⟨"9", "Bob", false, 1, ""⟩

/-- Scoring event taking the total to 5+5. -/
def evTen : Event := ⟨1, "08:00", 1, 1, "2pt", "", 1, 5, 5, "7", "Alice"⟩

/-- Later scoring event whose total 1+0 is smaller than the previous one. -/
def evOne : Event := ⟨2, "07:00", 1, 1, "2pt", "", 1, 1, 0, "7", "Alice"⟩

/-- Alice substituted out at "06:00" of period 1 (absolute second 240). -/
def evAliceOut240 : Event := ⟨3, "06:00", 1, 1, "substitution", "out", 0, 0, 0, "7", "Alice"⟩

/-- One-period game whose score total decreases between events. -/
def gDecreasing : GameData :=
  ⟨"gd", "T1", "T2", "A", "B", 1, 0, 1, [pAlice], [evTen, evOne, evAliceOut240]⟩

/-- Alice substituted out at "10:00" of period 1 (absolute second 0). -/
def evAliceOut0 : Event := ⟨2, "10:00", 1, 1, "substitution", "out", 0, 0, 0, "7", "Alice"⟩

/-- One-period game whose only event removes the lone starter at second 0,
producing a stint with `time_in = time_out = 0` and a zero-second starter. -/
def gZeroStint : GameData :=
  ⟨"gz", "T1", "T2", "A", "B", 0, 0, 1, [pAlice], [evAliceOut0]⟩

/-- One-period game whose roster is a single bench player and that has no
events: the player never plays. -/
def gBenchDNP : GameData :=
  ⟨"gb", "T1", "T2", "A", "B", 0, 0, 1, [pBob], []⟩

/-! ## C3: score snapshot rule -/

/-- C3 counterexample: the loop accepts any event with a positive score
total, with no non-decreasing check.  After scores 5-5 and then 1-0, the
stint closed at "06:00" carries exit score 1-0, while the claimed
most-recent-present-and-non-decreasing rule keeps 5-5. -/
theorem score_snapshot_nondecreasing_cex :
    spec_last_score [evTen, evOne] = (5, 5) ∧
    team_rotations gDecreasing 1 = .ok
      [⟨"7", "Alice", 1, true, 240, [⟨"7", "Alice", 1, 1, 1, 0, 240, 0, 0, 1, 0⟩]⟩] ∧
    ((1 : Int), (0 : Int)) ≠ ((5 : Int), (5 : Int)) :=
  ⟨by decide, by decide, by decide⟩

/-- C3 (amended): the score snapshot the loop records is the most recent
event with a positive score total — with no monotonicity filter.  One loop
iteration replaces the snapshot exactly when the event's score total is
positive; after the whole loop the snapshot is the fold of that rule over
all events from 0-0; and that fold equals the score pair of the last event
with positive total (0-0 when there is none), so zero/absent totals carry
the previous snapshot forward. -/
theorem score_snapshot_last_positive :
    (∀ (tno : Int) (rots : List (String × PlayerRotation)) (st : TeamState) (e : Event)
        (st' : TeamState), rotations_step tno rots st e = .ok st' →
      (st'.last_score1, st'.last_score2) =
        if e.score1 + e.score2 > 0 then (e.score1, e.score2)
        else (st.last_score1, st.last_score2)) ∧
    (∀ (game : GameData) (tno : Int) (final : TeamState),
        team_fold game tno = .ok final →
      (final.last_score1, final.last_score2) = last_score game.events) ∧
    (∀ events : List Event,
      last_score events =
        ((events.filter (fun e => e.score1 + e.score2 > 0)).getLast?).elim (0, 0)
          (fun e => (e.score1, e.score2))) := by
  refine ⟨rotations_step_score, ?_, ?_⟩
  · intro game tno final h
    unfold team_fold at h
    have := team_fold_scores tno (build_rotations tno (team_players game tno))
      game.events (init_team_state (team_players game tno)) final h
    rw [this]
    obtain ⟨h1, h2⟩ := init_team_state_scores (team_players game tno)
    rw [h1, h2]
    rfl
  · intro events
    have := foldl_snapshot_getLast (fun e => decide (e.score1 + e.score2 > 0))
      (fun e => (e.score1, e.score2)) events (0, 0)
    simpa [last_score, decide_eq_true_eq] using this

/-- Witness for `score_snapshot_last_positive` at a concrete step. -/
theorem score_snapshot_last_positive_witness :
    rotations_step 1 [] ⟨[], [], [], 0, 0⟩ evTen = .ok ⟨[], [], [], 5, 5⟩ ∧
    ((TeamState.mk [] [] [] 5 5).last_score1, (TeamState.mk [] [] [] 5 5).last_score2) =
      if evTen.score1 + evTen.score2 > 0 then (evTen.score1, evTen.score2)
      else ((TeamState.mk [] [] [] 0 0).last_score1, (TeamState.mk [] [] [] 0 0).last_score2) :=
  ⟨by decide, score_snapshot_last_positive.1 1 [] ⟨[], [], [], 0, 0⟩ evTen _ (by decide)⟩

/-! ## C7: substitution-out for an unknown shirt -/

/-- C7: a substitution-out event naming a shirt number that is not recorded
on court is ignored: as long as its clock parses (a malformed clock raises
for any substitution event of the team, known shirt or not), the step
succeeds and leaves the on-court set, the open-stint table, and the emitted
stints untouched. -/
theorem sub_out_unknown_ignored (tno : Int) (rots : List (String × PlayerRotation))
    (st : TeamState) (e : Event)
    (h1 : e.action_type = "substitution") (h2 : e.sub_type = "out")
    (h3 : dictGet e.shirt_number st.on_court = none)
    (h4 : e.team_number = tno → ∃ t, parse_time_to_seconds e.game_time e.period 600 = .ok t) :
    ∃ st', rotations_step tno rots st e = .ok st' ∧
      st'.on_court = st.on_court ∧ st'.stint_start = st.stint_start ∧
      st'.stints = st.stints := by
  unfold rotations_step substitution_step
  by_cases hs : e.score1 + e.score2 > 0
  · refine ⟨{ st with last_score1 := e.score1, last_score2 := e.score2 }, ?_, rfl, rfl, rfl⟩
    by_cases ht : e.team_number = tno
    · obtain ⟨t, hp⟩ := h4 ht
      simp [hs, h1, h2, ht, hp, h3, Bind.bind, Except.bind, pure, Except.pure]
    · simp [hs, h1, ht, pure, Except.pure]
  · refine ⟨st, ?_, rfl, rfl, rfl⟩
    by_cases ht : e.team_number = tno
    · obtain ⟨t, hp⟩ := h4 ht
      simp [hs, h1, h2, ht, hp, h3, Bind.bind, Except.bind, pure, Except.pure]
    · simp [hs, h1, ht, pure, Except.pure]

/-- Substitution-out event naming shirt 99, which is never on court. -/
def evGhostOut : Event := ⟨5, "05:00", 1, 1, "substitution", "out", 0, 0, 0, "99", "Ghost"⟩

/-- Witness for `sub_out_unknown_ignored` on an empty on-court state. -/
theorem sub_out_unknown_ignored_witness :
    (evGhostOut.action_type = "substitution" ∧ evGhostOut.sub_type = "out" ∧
      dictGet evGhostOut.shirt_number (TeamState.mk [] [] [] 0 0).on_court = none ∧
      parse_time_to_seconds evGhostOut.game_time evGhostOut.period 600 = .ok 300) ∧
    ∃ st', rotations_step 1 [] ⟨[], [], [], 0, 0⟩ evGhostOut = .ok st' ∧
      st'.on_court = (TeamState.mk [] [] [] 0 0).on_court ∧
      st'.stint_start = (TeamState.mk [] [] [] 0 0).stint_start ∧
      st'.stints = (TeamState.mk [] [] [] 0 0).stints :=
  ⟨⟨rfl, rfl, rfl, by decide⟩,
    sub_out_unknown_ignored 1 [] ⟨[], [], [], 0, 0⟩ evGhostOut rfl rfl rfl
      (fun _ => ⟨300, by decide⟩)⟩


/-- Field-goal-attempt test of the possession loop ("2pt" or "3pt"). -/
def is_fga (e : Event) : Bool := e.action_type == "2pt" || e.action_type == "3pt"

/-- Free-throw-attempt test of the possession loop. -/
def is_fta (e : Event) : Bool := e.action_type == "freethrow"

/-- Offensive-rebound test of the possession loop. -/
def is_oreb (e : Event) : Bool := e.action_type == "rebound" && e.sub_type == "offensive"

/-- Turnover test of the possession loop (the source counter `to`). -/
def is_tov (e : Event) : Bool := e.action_type == "turnover"

/-- An event is counted for a team's possessions when its team matches and
its absolute time lies in the window, inclusive on both ends. -/
def event_in_window (tno ts te : Int) (e : Event) : Bool :=
  e.team_number == tno &&
    match parse_time_to_seconds e.game_time e.period 600 with
    | .ok t => decide (ts ≤ t) && decide (t ≤ te)
    | .error _ => false

/-- The possession loop counts exactly the filtered events of each
category. -/
theorem poss_fold (tno ts te : Int) :
    ∀ (events : List Event) (c : PossCounts),
      (∀ e ∈ events, e.team_number = tno →
        ∃ t, parse_time_to_seconds e.game_time e.period 600 = .ok t) →
      events.foldlM (poss_step tno ts te) c = .ok
        ⟨c.fga + ((events.filter (fun e => event_in_window tno ts te e && is_fga e)).length : Int),
         c.oreb + ((events.filter (fun e => event_in_window tno ts te e && is_oreb e)).length : Int),
         c.tov + ((events.filter (fun e => event_in_window tno ts te e && is_tov e)).length : Int),
         c.fta + ((events.filter (fun e => event_in_window tno ts te e && is_fta e)).length : Int)⟩ := by
  intro events
  induction events with
  | nil =>
    intro c _
    simp only [List.foldlM_nil, List.filter_nil, List.length_nil]
    cases c
    simp [pure, Except.pure]
  | cons e rest ih =>
    intro c h
    have hrest : ∀ e' ∈ rest, e'.team_number = tno →
        ∃ t, parse_time_to_seconds e'.game_time e'.period 600 = .ok t :=
      fun e' he' => h e' (List.mem_cons_of_mem _ he')
    rw [List.foldlM_cons]
    by_cases hteam : e.team_number = tno
    · obtain ⟨t, hp⟩ := h e (List.mem_cons_self _ _) hteam
      have hwin : event_in_window tno ts te e =
          (decide (ts ≤ t) && decide (t ≤ te)) := by
        unfold event_in_window
        rw [hp]
        simp [hteam]
      by_cases hout : t < ts ∨ t > te
      · have hwin' : event_in_window tno ts te e = false := by
          rw [hwin]
          rcases hout with hlt | hgt
          · simp [not_le.mpr hlt]
          · simp [not_le.mpr hgt]
        have hstep : poss_step tno ts te c e = .ok c := by
          unfold poss_step
          rw [if_neg (by simp [hteam])]
          simp only [hp, Bind.bind, Except.bind]
          rw [if_pos hout]
          rfl
        rw [hstep]
        simp only [Bind.bind, Except.bind]
        rw [ih c hrest]
        simp [List.filter_cons, hwin']
      · have hwin' : event_in_window tno ts te e = true := by
          rw [hwin]
          push_neg at hout
          simp [hout.1, hout.2]
        have hbody : ∀ c', poss_step tno ts te c' e = .ok
            (if is_fga e then { c' with fga := c'.fga + 1 }
             else if is_fta e then { c' with fta := c'.fta + 1 }
             else if is_oreb e then { c' with oreb := c'.oreb + 1 }
             else if is_tov e then { c' with tov := c'.tov + 1 }
             else c') := by
          intro c'
          unfold poss_step
          rw [if_neg (by simp [hteam])]
          simp only [hp, Bind.bind, Except.bind]
          rw [if_neg hout]
          unfold is_fga is_fta is_oreb is_tov
          by_cases h1 : e.action_type = "2pt" ∨ e.action_type = "3pt"
          · rw [if_pos h1]
            have hb : (e.action_type == "2pt" || e.action_type == "3pt") = true := by
              rcases h1 with h1 | h1 <;> simp [h1]
            rw [hb]
            rfl
          · rw [if_neg h1]
            have hb1 : (e.action_type == "2pt" || e.action_type == "3pt") = false := by
              push_neg at h1
              simp [h1.1, h1.2]
            rw [hb1]
            by_cases h2 : e.action_type = "freethrow"
            · rw [if_pos h2]
              have hb : (e.action_type == "freethrow") = true := by simp [h2]
              rw [hb]
              rfl
            · rw [if_neg h2]
              have hb2 : (e.action_type == "freethrow") = false := by simp [h2]
              rw [hb2]
              by_cases h3 : e.action_type = "rebound" ∧ e.sub_type = "offensive"
              · rw [if_pos h3]
                have hb : (e.action_type == "rebound" && e.sub_type == "offensive") = true := by
                  simp [h3.1, h3.2]
                rw [hb]
                rfl
              · rw [if_neg h3]
                have hb3 : (e.action_type == "rebound" && e.sub_type == "offensive") = false := by
                  rcases not_and_or.mp h3 with h3 | h3 <;> simp [h3]
                rw [hb3]
                by_cases h4 : e.action_type = "turnover"
                · rw [if_pos h4]
                  have hb : (e.action_type == "turnover") = true := by simp [h4]
                  rw [hb]
                  rfl
                · rw [if_neg h4]
                  have hb4 : (e.action_type == "turnover") = false := by simp [h4]
                  rw [hb4]
                  rfl
        rw [hbody c]
        simp only [Bind.bind, Except.bind]
        by_cases h1 : is_fga e = true
        · have ha : e.action_type = "2pt" ∨ e.action_type = "3pt" := by
            simpa [is_fga] using h1
          have h2 : is_fta e = false := by
            rcases ha with hx | hx <;> simp [is_fta, hx]
          have h3 : is_oreb e = false := by
            rcases ha with hx | hx <;> simp [is_oreb, hx]
          have h4 : is_tov e = false := by
            rcases ha with hx | hx <;> simp [is_tov, hx]
          rw [if_pos h1, ih _ hrest]
          simp [List.filter_cons, hwin', h1, h2, h3, h4]
          omega
        · have h1' : is_fga e = false := by simpa using h1
          rw [if_neg h1]
          by_cases h2 : is_fta e = true
          · have ha : e.action_type = "freethrow" := by simpa [is_fta] using h2
            have h3 : is_oreb e = false := by simp [is_oreb, ha]
            have h4 : is_tov e = false := by simp [is_tov, ha]
            rw [if_pos h2, ih _ hrest]
            simp [List.filter_cons, hwin', h1', h2, h3, h4]
            omega
          · have h2' : is_fta e = false := by simpa using h2
            rw [if_neg h2]
            by_cases h3 : is_oreb e = true
            · have h4 : is_tov e = false := by
                have ha : e.action_type = "rebound" ∧ e.sub_type = "offensive" := by
                  simpa [is_oreb] using h3
                simp [is_tov, ha.1]
              rw [if_pos h3, ih _ hrest]
              simp [List.filter_cons, hwin', h1', h2', h3, h4]
              omega
            · have h3' : is_oreb e = false := by simpa using h3
              rw [if_neg h3]
              by_cases h4 : is_tov e = true
              · rw [if_pos h4, ih _ hrest]
                simp [List.filter_cons, hwin', h1', h2', h3', h4]
                omega
              · have h4' : is_tov e = false := by simpa using h4
                rw [if_neg h4, ih _ hrest]
                simp [List.filter_cons, hwin', h1', h2', h3', h4']
    · have hstep : poss_step tno ts te c e = .ok c := by
        unfold poss_step
        rw [if_pos (by simp [hteam])]
        rfl
      rw [hstep]
      simp only [Bind.bind, Except.bind]
      rw [ih c hrest]
      have hwin' : event_in_window tno ts te e = false := by
        unfold event_in_window
        simp [hteam]
      simp [List.filter_cons, hwin']

/-- C8: the possession estimate over `[t_start, t_end]` equals
FGA − OREB + TO + 0.44 × FTA, each counted over the events whose team
matches and whose absolute time lies in the window, inclusive on both ends
(provided every event of the team has a well-formed clock, since the source
raises otherwise). -/
theorem possessions_formula (events : List Event) (tno ts te : Int)
    (h : ∀ e ∈ events, e.team_number = tno →
      ∃ t, parse_time_to_seconds e.game_time e.period 600 = .ok t) :
    count_possessions_in_range events tno ts te = .ok
      (((events.filter (fun e => event_in_window tno ts te e && is_fga e)).length : ℚ)
        - ((events.filter (fun e => event_in_window tno ts te e && is_oreb e)).length : ℚ)
        + ((events.filter (fun e => event_in_window tno ts te e && is_tov e)).length : ℚ)
        + 0.44 * ((events.filter (fun e => event_in_window tno ts te e && is_fta e)).length : ℚ)) := by
  unfold count_possessions_in_range
  rw [poss_fold tno ts te events ⟨0, 0, 0, 0⟩ h]
  simp only [Bind.bind, Except.bind, pure, Except.pure, Except.ok.injEq]
  push_cast
  ring

/-- A window's worth of events: 10 field-goal attempts, 2 offensive
rebounds, 3 turnovers, 5 free throws, all of team 1 at absolute second
300. -/
def exPossEvents : List Event :=
  (List.range' 1 10).map (fun n => ⟨(n : Int), "05:00", 1, 1, "2pt", "", 0, 0, 0, "7", ""⟩) ++
  (List.range' 11 2).map (fun n => ⟨(n : Int), "05:00", 1, 1, "rebound", "offensive", 0, 0, 0, "7", ""⟩) ++
  (List.range' 13 3).map (fun n => ⟨(n : Int), "05:00", 1, 1, "turnover", "", 0, 0, 0, "7", ""⟩) ++
  (List.range' 16 5).map (fun n => ⟨(n : Int), "05:00", 1, 1, "freethrow", "", 0, 0, 0, "7", ""⟩)

/-- Witness for `possessions_formula`: the literal case of the spec,
fga=10, oreb=2, to=3, fta=5 in the window gives 13.2 = 66/5 possessions. -/
theorem possessions_formula_witness :
    (∀ e ∈ exPossEvents, e.team_number = 1 →
      ∃ t, parse_time_to_seconds e.game_time e.period 600 = .ok t) ∧
    count_possessions_in_range exPossEvents 1 0 600 = .ok (66 / 5) := by
  have hp : ∀ e ∈ exPossEvents,
      parse_time_to_seconds e.game_time e.period 600 = Except.ok 300 := by decide
  have hh : ∀ e ∈ exPossEvents, e.team_number = 1 →
      ∃ t, parse_time_to_seconds e.game_time e.period 600 = .ok t :=
    fun e he _ => ⟨300, hp e he⟩
  refine ⟨hh, ?_⟩
  rw [possessions_formula exPossEvents 1 0 600 hh]
  have h1 : (exPossEvents.filter (fun e => event_in_window 1 0 600 e && is_fga e)).length = 10 := by
    decide
  have h2 : (exPossEvents.filter (fun e => event_in_window 1 0 600 e && is_oreb e)).length = 2 := by
    decide
  have h3 : (exPossEvents.filter (fun e => event_in_window 1 0 600 e && is_tov e)).length = 3 := by
    decide
  have h4 : (exPossEvents.filter (fun e => event_in_window 1 0 600 e && is_fta e)).length = 5 := by
    decide
  rw [h1, h2, h3, h4]
  norm_num

/-- C9: no rating is ever produced by dividing by zero — a stint whose
window holds zero team possessions gets `ortg = 0`, zero opponent
possessions gets `drtg = 0`, and a player whose accumulated possession
total is zero keeps `ortg = drtg = net_rating = 0`. -/
theorem ratings_zero_possessions :
    (∀ (stint : Stint) (events : List Event) (r : StintRating),
        calculate_stint_rating stint events = .ok r →
        count_possessions_in_range events stint.team_number stint.time_in stint.time_out =
          .ok 0 →
        r.ortg = 0) ∧
    (∀ (stint : Stint) (events : List Event) (r : StintRating),
        calculate_stint_rating stint events = .ok r →
        count_possessions_in_range events (if stint.team_number = 1 then 2 else 1)
          stint.time_in stint.time_out = .ok 0 →
        r.drtg = 0) ∧
    (∀ (tno : Int) (game : GameData) (pr : PlayerRotation) (r : PlayerRating),
        build_player_rating tno game pr = .ok r →
        r.total_possessions = 0 →
        r.ortg = 0 ∧ r.drtg = 0 ∧ r.net_rating = 0) := by
  refine ⟨?_, ?_, ?_⟩
  · intro stint events r h h0
    unfold calculate_stint_rating at h
    rw [h0] at h
    simp only [Bind.bind, Except.bind] at h
    cases hopp : count_possessions_in_range events (if stint.team_number = 1 then 2 else 1)
        stint.time_in stint.time_out with
    | error m => rw [hopp] at h; cases h
    | ok q =>
      rw [hopp] at h
      simp only [lt_irrefl, if_false, ite_false, pure, Except.pure] at h
      cases h
      simp
  · intro stint events r h h0
    unfold calculate_stint_rating at h
    simp only [Bind.bind, Except.bind] at h
    cases hteam : count_possessions_in_range events stint.team_number
        stint.time_in stint.time_out with
    | error m => rw [hteam] at h; cases h
    | ok p =>
      rw [hteam, h0] at h
      simp only [lt_irrefl, if_false, ite_false, pure, Except.pure] at h
      cases h
      simp
  · intro tno game pr r h h0
    unfold build_player_rating at h
    cases hf : pr.stints.foldlM (rating_totals_step game) ((0 : ℚ), (0 : Int), (0 : Int)) with
    | error m => rw [hf] at h; simp [Bind.bind, Except.bind] at h
    | ok totals =>
      rw [hf] at h
      simp only [Bind.bind, Except.bind] at h
      by_cases hpos : 0 < totals.1
      · rw [if_pos hpos] at h
        simp only [pure, Except.pure] at h
        cases h
        simp only at h0
        rw [h0] at hpos
        exact absurd hpos (lt_irrefl 0)
      · rw [if_neg hpos] at h
        simp only [pure, Except.pure] at h
        cases h
        exact ⟨rfl, rfl, rfl⟩


/-- A stint over an empty event list (zero possessions on both sides). -/
def exStint : Stint := ⟨"7", "Alice", 1, 1, 1, 0, 600, 0, 0, 0, 0⟩
/-- The all-zero rating that `exStint` yields. -/
def exStintRating : StintRating := ⟨0, 0, 0, 0, 0⟩
/-- A player rotation with no stints. -/
def exPR : PlayerRotation := ⟨"9", "Bob", 1, false, 0, []⟩
/-- The all-zero player rating that `exPR` yields. -/
def exPRating : PlayerRating := ⟨"9", "Bob", 1, 0, 0, 0, 0, 0, 0, 0⟩

/-- Zero possessions are counted in any window of an empty event list. -/
theorem count_possessions_nil (tno a b : Int) :
    count_possessions_in_range [] tno a b = .ok 0 := by
  unfold count_possessions_in_range
  simp only [List.foldlM_nil, pure, Except.pure, Bind.bind, Except.bind]
  norm_num

/-- Concrete stint rating over no events. -/
theorem calculate_stint_rating_nil :
    calculate_stint_rating exStint [] = .ok exStintRating := by
  unfold calculate_stint_rating
  simp only [count_possessions_nil]
  simp only [Bind.bind, Except.bind, lt_irrefl, if_false, ite_false, pure, Except.pure]
  rfl

/-- Concrete player rating over no stints. -/
theorem build_player_rating_nil :
    build_player_rating 1 gBenchDNP exPR = .ok exPRating := by
  unfold build_player_rating
  have : exPR.stints = [] := rfl
  rw [this]
  simp only [List.foldlM_nil, pure, Except.pure, Bind.bind, Except.bind, lt_irrefl,
    if_false, ite_false]
  rfl

/-- Witness for `ratings_zero_possessions` at concrete zero-possession
inputs. -/
theorem ratings_zero_possessions_witness :
    (calculate_stint_rating exStint [] = .ok exStintRating ∧
     count_possessions_in_range [] exStint.team_number exStint.time_in exStint.time_out = .ok 0 ∧
     exStintRating.ortg = 0) ∧
    (build_player_rating 1 gBenchDNP exPR = .ok exPRating ∧
     exPRating.total_possessions = 0 ∧
     (exPRating.ortg = 0 ∧ exPRating.drtg = 0 ∧ exPRating.net_rating = 0)) :=
  ⟨⟨calculate_stint_rating_nil, count_possessions_nil _ _ _,
    ratings_zero_possessions.1 exStint [] exStintRating calculate_stint_rating_nil
      (count_possessions_nil _ _ _)⟩,
   ⟨build_player_rating_nil, rfl,
    ratings_zero_possessions.2.2 1 gBenchDNP exPR exPRating build_player_rating_nil rfl⟩⟩


theorem dictGet_dictInsert_isSome {α : Type} (k' k : String) (v : α) (d : List (String × α)) :
    (dictGet k' (dictInsert k v d)).isSome ↔ (k' = k ∨ (dictGet k' d).isSome) := by
  induction d with
  | nil =>
    simp only [dictInsert, dictGet]
    by_cases hk : k = k'
    · subst hk
      simp
    · have hk' : ¬ k' = k := fun h => hk h.symm
      simp [hk, hk']
  | cons kv rest ih =>
    by_cases hk1 : kv.1 = k
    · simp only [dictInsert, if_pos hk1, dictGet]
      by_cases hk2 : k = k'
      · subst hk2
        simp
      · have hk2' : ¬ k' = k := fun h => hk2 h.symm
        have hkv : ¬ kv.1 = k' := fun h => hk2 (hk1 ▸ h)
        simp [hk2, hk2', hkv]
    · simp only [dictInsert, if_neg hk1, dictGet]
      by_cases hk2 : kv.1 = k'
      · simp [hk2]
      · simp only [if_neg hk2]
        exact ih


theorem dictGet_dictErase_ne {α : Type} (k' k : String) (d : List (String × α))
    (h : k' ≠ k) : dictGet k' (dictErase k d) = dictGet k' d := by
  induction d with
  | nil => rfl
  | cons kv rest ih =>
    by_cases hk1 : kv.1 = k
    · have hkv : ¬ kv.1 = k' := fun hh => h ((hh.symm.trans hk1).symm ▸ rfl)
      simp only [dictErase, if_pos hk1, dictGet, if_neg hkv]
    · simp only [dictErase, if_neg hk1, dictGet]
      by_cases hk2 : kv.1 = k'
      · simp [hk2]
      · simp only [if_neg hk2]
        exact ih

theorem dictGet_dictErase_self {α : Type} (k : String) (d : List (String × α))
    (h : (d.map Prod.fst).Nodup) : dictGet k (dictErase k d) = none := by
  induction d with
  | nil => rfl
  | cons kv rest ih =>
    rw [List.map_cons, List.nodup_cons] at h
    by_cases hk1 : kv.1 = k
    · rw [dictErase, if_pos hk1]
      cases hget : dictGet k rest with
      | none => rfl
      | some v =>
        exact absurd (List.mem_map.mpr ⟨(k, v), dictGet_mem hget, rfl⟩) (hk1 ▸ h.1)
    · rw [dictErase, if_neg hk1, dictGet, if_neg hk1]
      exact ih h.2

theorem nodup_keys_dictInsert {α : Type} (k : String) (v : α) (d : List (String × α))
    (h : (d.map Prod.fst).Nodup) : ((dictInsert k v d).map Prod.fst).Nodup := by
  induction d with
  | nil => simp [dictInsert]
  | cons kv rest ih =>
    rw [List.map_cons, List.nodup_cons] at h
    by_cases hk1 : kv.1 = k
    · rw [dictInsert, if_pos hk1, List.map_cons, List.nodup_cons]
      exact ⟨by simpa [hk1] using h.1, h.2⟩
    · rw [dictInsert, if_neg hk1, List.map_cons, List.nodup_cons]
      refine ⟨fun hmem => ?_, ih h.2⟩
      rcases List.mem_map.mp hmem with ⟨kv', hkv', hfst⟩
      rcases mem_dictInsert hkv' with h' | hkv'
      · rw [h'] at hfst
        exact hk1 hfst.symm
      · exact h.1 (List.mem_map.mpr ⟨kv', hkv', hfst⟩)

theorem nodup_keys_dictErase {α : Type} (k : String) (d : List (String × α))
    (h : (d.map Prod.fst).Nodup) : ((dictErase k d).map Prod.fst).Nodup := by
  induction d with
  | nil => simp [dictErase]
  | cons kv rest ih =>
    rw [List.map_cons, List.nodup_cons] at h
    by_cases hk1 : kv.1 = k
    · rw [dictErase, if_pos hk1]
      exact h.2
    · rw [dictErase, if_neg hk1, List.map_cons, List.nodup_cons]
      refine ⟨fun hmem => ?_, ih h.2⟩
      rcases List.mem_map.mp hmem with ⟨kv', hkv', hfst⟩
      exact h.1 (List.mem_map.mpr ⟨kv', mem_dictErase hkv', hfst⟩)


/-- Inserting a fresh key appends. -/
theorem dictInsert_of_fresh {α : Type} (k : String) (v : α) (d : List (String × α))
    (h : ∀ kv ∈ d, kv.1 ≠ k) : dictInsert k v d = d ++ [(k, v)] := by
  induction d with
  | nil => rfl
  | cons kv rest ih =>
    rw [dictInsert, if_neg (h kv (List.mem_cons_self _ _)), List.cons_append,
      ih (fun kv' h' => h kv' (List.mem_cons_of_mem _ h'))]

/-- With unique shirt numbers, the roster dict is the roster list itself. -/
theorem build_rotations_eq_map (tno : Int) (ps : List Player)
    (h : (ps.map (fun p => p.shirt_number)).Nodup) :
    build_rotations tno ps = ps.map (fun p => (p.shirt_number, make_rotation tno p)) := by
  suffices key : ∀ (l : List Player) (acc : List (String × PlayerRotation)),
      (l.map (fun p => p.shirt_number)).Nodup →
      (∀ p ∈ l, ∀ kv ∈ acc, kv.1 ≠ p.shirt_number) →
      l.foldl (fun acc p => dictInsert p.shirt_number (make_rotation tno p) acc) acc =
        acc ++ l.map (fun p => (p.shirt_number, make_rotation tno p)) by
    simpa [build_rotations] using key ps [] h (by simp)
  intro l
  induction l with
  | nil => intro acc _ _; simp
  | cons p rest ih =>
    intro acc hnd hfresh
    rw [List.map_cons, List.nodup_cons] at hnd
    rw [List.foldl_cons,
      dictInsert_of_fresh _ _ _ (fun kv hkv => hfresh p (List.mem_cons_self _ _) kv hkv),
      ih (acc ++ [(p.shirt_number, make_rotation tno p)]) hnd.2 ?_]
    · simp
    · intro q hq kv hkv
      rcases List.mem_append.mp hkv with hkv | hkv
      · exact hfresh q (List.mem_cons_of_mem _ hq) kv hkv
      · rw [List.mem_singleton.mp hkv]
        intro hEq
        exact hnd.1 (List.mem_map.mpr ⟨q, hq, hEq.symm⟩)

/-- The `PlayerRotation` a roster player ends up with: identity fields from
the roster, stints filtered from the global emission sequence, total seconds
the sum of their durations. -/
def attached_rotation (all : List Stint) (tno : Int) (p : Player) : PlayerRotation :=
  { make_rotation tno p with
    stints := all.filter (fun s => s.shirt_number == p.shirt_number),
    total_seconds :=
      ((all.filter (fun s => s.shirt_number == p.shirt_number)).map Stint.duration).sum }

/-- With unique shirt numbers, the team's rotation values are the roster in
order, each with its attached stints. -/
theorem team_values_eq_map (game : GameData) (tno : Int) (final : TeamState)
    (hfold : team_fold game tno = .ok final)
    (hnd : ((team_players game tno).map (fun p => p.shirt_number)).Nodup) :
    team_values game tno = .ok ((team_players game tno).map
      (attached_rotation (team_all_stints game tno final) tno)) := by
  unfold team_values
  rw [hfold]
  simp only [Bind.bind, Except.bind, pure, Except.pure, Except.ok.injEq]
  unfold attach_stints
  rw [build_rotations_eq_map tno _ hnd]
  rw [List.map_map, List.map_map]
  apply List.map_congr_left
  intro p _
  rfl


/-! ## C5: roster coverage of the output -/

/-- C5 (amended): with unique shirt numbers per team, the output contains a
PlayerRotation for every STARTER on the roster (with the roster identity),
every output entry is a starter or has positive playing time (so bench
players who never played are OMITTED, not included), every output entry
comes from the roster, and conversely every roster NON-starter whose
computed rotation has positive total seconds does appear in the output,
with the roster identity and that positive playing time. -/
theorem roster_output_members (game : GameData) (tno : Int) (res : List PlayerRotation)
    (h : team_rotations game tno = .ok res)
    (hnd : ((team_players game tno).map (fun p => p.shirt_number)).Nodup) :
    (∀ p ∈ game.players, p.team_number = tno → p.is_starter = true →
      ∃ pr ∈ res, pr.shirt_number = p.shirt_number ∧ pr.player_name = p.name ∧
        pr.is_starter = true) ∧
    (∀ pr ∈ res, pr.is_starter = true ∨ 0 < pr.total_seconds) ∧
    (∀ pr ∈ res, ∃ p ∈ game.players, p.team_number = tno ∧
      pr.shirt_number = p.shirt_number ∧ pr.player_name = p.name ∧
      pr.is_starter = p.is_starter) ∧
    (∀ final, team_fold game tno = .ok final →
      ∀ p ∈ game.players, p.team_number = tno → p.is_starter = false →
        0 < (attached_rotation (team_all_stints game tno final) tno p).total_seconds →
        ∃ pr ∈ res, pr.shirt_number = p.shirt_number ∧ pr.player_name = p.name ∧
          pr.is_starter = false ∧ 0 < pr.total_seconds) := by
  unfold team_rotations at h
  cases hf : team_fold game tno with
  | error m =>
    have : team_values game tno = .error m := by
      unfold team_values
      rw [hf]
      rfl
    rw [this] at h
    simp [Bind.bind, Except.bind] at h
  | ok final =>
    rw [team_values_eq_map game tno final hf hnd] at h
    simp only [Bind.bind, Except.bind, pure, Except.pure, Except.ok.injEq] at h
    set values := (team_players game tno).map
      (attached_rotation (team_all_stints game tno final) tno) with hvalues
    have hres : res = List.insertionSort rotGE (values.filter (fun r => r.is_starter)) ++
        List.insertionSort rotGE
          (values.filter (fun r => !r.is_starter && decide (0 < r.total_seconds))) := h.symm
    refine ⟨?_, ?_, ?_, ?_⟩
    · intro p hp hteam hstarter
      have hmem : p ∈ team_players game tno := by
        unfold team_players
        exact List.mem_filter.mpr ⟨hp, by simp [hteam]⟩
      refine ⟨attached_rotation (team_all_stints game tno final) tno p, ?_, rfl, rfl, hstarter⟩
      rw [hres]
      apply List.mem_append_left
      rw [List.mem_insertionSort]
      refine List.mem_filter.mpr ⟨List.mem_map.mpr ⟨p, hmem, rfl⟩, ?_⟩
      simpa [attached_rotation, make_rotation] using hstarter
    · intro pr hpr
      rw [hres] at hpr
      rcases List.mem_append.mp hpr with hpr | hpr
      · rw [List.mem_insertionSort] at hpr
        exact Or.inl (List.mem_filter.mp hpr).2
      · rw [List.mem_insertionSort] at hpr
        have := (List.mem_filter.mp hpr).2
        rw [Bool.and_eq_true] at this
        exact Or.inr (by simpa using this.2)
    · intro pr hpr
      rw [hres] at hpr
      have hprv : pr ∈ values := by
        rcases List.mem_append.mp hpr with hpr | hpr <;>
          rw [List.mem_insertionSort] at hpr <;>
          exact (List.mem_filter.mp hpr).1
      rcases List.mem_map.mp hprv with ⟨p, hp, hpr_eq⟩
      have hp' := List.mem_filter.mp hp
      refine ⟨p, hp'.1, by simpa using hp'.2, ?_, ?_, ?_⟩ <;> rw [← hpr_eq] <;> rfl
    · intro final' hfinal' p hp hteam hbench hpos
      have hfin : final = final' := Except.ok.inj hfinal'
      subst hfin
      have hmem : p ∈ team_players game tno := by
        unfold team_players
        exact List.mem_filter.mpr ⟨hp, by simp [hteam]⟩
      refine ⟨attached_rotation (team_all_stints game tno final) tno p, ?_, rfl, rfl,
        ?_, hpos⟩
      · rw [hres]
        apply List.mem_append_right
        rw [List.mem_insertionSort]
        refine List.mem_filter.mpr ⟨List.mem_map.mpr ⟨p, hmem, rfl⟩, ?_⟩
        rw [Bool.and_eq_true]
        refine ⟨?_, by simpa using hpos⟩
        have : (attached_rotation (team_all_stints game tno final) tno p).is_starter =
            p.is_starter := rfl
        rw [this, hbench]
        rfl
      · show (attached_rotation (team_all_stints game tno final) tno p).is_starter = false
        have : (attached_rotation (team_all_stints game tno final) tno p).is_starter =
            p.is_starter := rfl
        rw [this, hbench]

/-- C5 counterexample: a roster with a single bench player and no events
yields an EMPTY rotation list — the never-playing player has no
PlayerRotation in the output. -/
theorem roster_bench_dnp_omitted_cex :
    pBob ∈ gBenchDNP.players ∧ pBob.team_number = 1 ∧
    team_rotations gBenchDNP 1 = .ok [] :=
  ⟨by decide, by decide, by decide⟩

/-- Bob substituted in at "08:00" of period 1 (absolute second 120). -/
def evBobIn : Event := ⟨1, "08:00", 1, 1, "substitution", "in", 0, 0, 0, "9", "Bob"⟩

/-- Bob substituted out at "06:00" of period 1 (absolute second 240). -/
def evBobOut : Event := ⟨2, "06:00", 1, 1, "substitution", "out", 0, 0, 0, "9", "Bob"⟩

/-- One-period game whose lone bench player plays from second 120 to 240. -/
def gBenchPlays : GameData :=
  ⟨"gp", "T1", "T2", "A", "B", 0, 0, 1, [pBob], [evBobIn, evBobOut]⟩

/-- The state after `gBenchPlays`' two events: empty court, one 120-second
stint emitted for Bob. -/
def gBenchPlaysFinal : TeamState :=
  ⟨[], [], [⟨"9", "Bob", 1, 1, 1, 120, 240, 0, 0, 0, 0⟩], 0, 0⟩

/-- Witness for `roster_output_members` at concrete games: the starter
conjunct on a starter-only roster, and the positive-time-bench conjunct on
a roster whose lone non-starter plays 120 seconds. -/
theorem roster_output_members_witness :
    (team_rotations gZeroStint 1 =
      .ok [⟨"7", "Alice", 1, true, 0, [⟨"7", "Alice", 1, 1, 1, 0, 0, 0, 0, 0, 0⟩]⟩] ∧
     ((team_players gZeroStint 1).map (fun p => p.shirt_number)).Nodup) ∧
    (∀ p ∈ gZeroStint.players, p.team_number = 1 → p.is_starter = true →
      ∃ pr ∈ [(⟨"7", "Alice", 1, true, 0,
          [⟨"7", "Alice", 1, 1, 1, 0, 0, 0, 0, 0, 0⟩]⟩ : PlayerRotation)],
        pr.shirt_number = p.shirt_number ∧ pr.player_name = p.name ∧
        pr.is_starter = true) ∧
    (team_rotations gBenchPlays 1 =
      .ok [⟨"9", "Bob", 1, false, 120, [⟨"9", "Bob", 1, 1, 1, 120, 240, 0, 0, 0, 0⟩]⟩] ∧
     ((team_players gBenchPlays 1).map (fun p => p.shirt_number)).Nodup ∧
     team_fold gBenchPlays 1 = .ok gBenchPlaysFinal ∧
     pBob ∈ gBenchPlays.players ∧ pBob.team_number = 1 ∧ pBob.is_starter = false ∧
     0 < (attached_rotation (team_all_stints gBenchPlays 1 gBenchPlaysFinal) 1
        pBob).total_seconds) ∧
    (∃ pr ∈ [(⟨"9", "Bob", 1, false, 120,
        [⟨"9", "Bob", 1, 1, 1, 120, 240, 0, 0, 0, 0⟩]⟩ : PlayerRotation)],
      pr.shirt_number = pBob.shirt_number ∧ pr.player_name = pBob.name ∧
      pr.is_starter = false ∧ 0 < pr.total_seconds) :=
  ⟨⟨by decide, by decide⟩,
   (roster_output_members gZeroStint 1 _ (by decide) (by decide)).1,
   ⟨by decide, by decide, by decide, by decide, by decide, by decide, by decide⟩,
   (roster_output_members gBenchPlays 1 _ (by decide) (by decide)).2.2.2
     gBenchPlaysFinal (by decide) pBob (by decide) (by decide) (by decide) (by decide)⟩


/-! ## C6: output ordering -/

/-- C6 (amended): the per-team output is the stable descending sort of all
starters (zero-second starters INCLUDED) followed by the stable descending
sort of the non-starters with positive playing time; each part is sorted by
`total_seconds` nonincreasing, is a permutation of its group, and preserves
the relative order of ties; the values list being sorted is the roster in
input order. -/
theorem output_ordering (game : GameData) (tno : Int) (values : List PlayerRotation)
    (final : TeamState)
    (hv : team_values game tno = .ok values)
    (hfold : team_fold game tno = .ok final)
    (hnd : ((team_players game tno).map (fun p => p.shirt_number)).Nodup) :
    team_rotations game tno = .ok
      (List.insertionSort rotGE (values.filter (fun r => r.is_starter)) ++
       List.insertionSort rotGE
         (values.filter (fun r => !r.is_starter && decide (0 < r.total_seconds)))) ∧
    (List.insertionSort rotGE (values.filter (fun r => r.is_starter))).Sorted rotGE ∧
    (List.insertionSort rotGE
      (values.filter (fun r => !r.is_starter && decide (0 < r.total_seconds)))).Sorted rotGE ∧
    (∀ x ∈ List.insertionSort rotGE (values.filter (fun r => r.is_starter)),
      x.is_starter = true) ∧
    (∀ x ∈ List.insertionSort rotGE
        (values.filter (fun r => !r.is_starter && decide (0 < r.total_seconds))),
      x.is_starter = false ∧ 0 < x.total_seconds) ∧
    (List.insertionSort rotGE (values.filter (fun r => r.is_starter))).Perm
      (values.filter (fun r => r.is_starter)) ∧
    (List.insertionSort rotGE
      (values.filter (fun r => !r.is_starter && decide (0 < r.total_seconds)))).Perm
      (values.filter (fun r => !r.is_starter && decide (0 < r.total_seconds))) ∧
    (∀ a b, rotGE a b → [a, b].Sublist (values.filter (fun r => r.is_starter)) →
      [a, b].Sublist (List.insertionSort rotGE (values.filter (fun r => r.is_starter)))) ∧
    (∀ a b, rotGE a b →
      [a, b].Sublist (values.filter (fun r => !r.is_starter && decide (0 < r.total_seconds))) →
      [a, b].Sublist (List.insertionSort rotGE
        (values.filter (fun r => !r.is_starter && decide (0 < r.total_seconds))))) ∧
    values = (team_players game tno).map
      (attached_rotation (team_all_stints game tno final) tno) := by
  have hval : values = (team_players game tno).map
      (attached_rotation (team_all_stints game tno final) tno) := by
    have := team_values_eq_map game tno final hfold hnd
    rw [hv] at this
    exact Except.ok.inj this
  refine ⟨?_, List.sorted_insertionSort rotGE _, List.sorted_insertionSort rotGE _,
    ?_, ?_, List.perm_insertionSort rotGE _, List.perm_insertionSort rotGE _,
    fun a b hab hsub => List.pair_sublist_insertionSort hab hsub,
    fun a b hab hsub => List.pair_sublist_insertionSort hab hsub, hval⟩
  · unfold team_rotations
    rw [hv]
    rfl
  · intro x hx
    rw [List.mem_insertionSort] at hx
    exact (List.mem_filter.mp hx).2
  · intro x hx
    rw [List.mem_insertionSort] at hx
    have := (List.mem_filter.mp hx).2
    rw [Bool.and_eq_true] at this
    exact ⟨by simpa using this.1, by simpa using this.2⟩

/-- The state after `gZeroStint`'s single event: empty court, one emitted
zero-length stint. -/
def gZeroStintFinal : TeamState :=
  ⟨[], [], [⟨"7", "Alice", 1, 1, 1, 0, 0, 0, 0, 0, 0⟩], 0, 0⟩

/-- Witness for `output_ordering` at a concrete game. -/
theorem output_ordering_witness :
    (team_values gZeroStint 1 =
      .ok [⟨"7", "Alice", 1, true, 0, [⟨"7", "Alice", 1, 1, 1, 0, 0, 0, 0, 0, 0⟩]⟩] ∧
     team_fold gZeroStint 1 = .ok gZeroStintFinal ∧
     ((team_players gZeroStint 1).map (fun p => p.shirt_number)).Nodup) ∧
    team_rotations gZeroStint 1 = .ok
      (List.insertionSort rotGE
        (([(⟨"7", "Alice", 1, true, 0,
            [⟨"7", "Alice", 1, 1, 1, 0, 0, 0, 0, 0, 0⟩]⟩ : PlayerRotation)]).filter
          (fun r => r.is_starter)) ++
       List.insertionSort rotGE
        (([(⟨"7", "Alice", 1, true, 0,
            [⟨"7", "Alice", 1, 1, 1, 0, 0, 0, 0, 0, 0⟩]⟩ : PlayerRotation)]).filter
          (fun r => !r.is_starter && decide (0 < r.total_seconds)))) :=
  ⟨⟨by decide, by decide, by decide⟩,
   (output_ordering gZeroStint 1 _ gZeroStintFinal (by decide) (by decide) (by decide)).1⟩

/-- C6 counterexample: a player with zero total seconds (a starter removed
at second 0) appears in the final ordering, so "players with zero seconds
are excluded from this ordering" fails as stated for starters. -/
theorem zero_seconds_player_listed_cex :
    team_rotations gZeroStint 1 =
      .ok [⟨"7", "Alice", 1, true, 0, [⟨"7", "Alice", 1, 1, 1, 0, 0, 0, 0, 0, 0⟩]⟩] ∧
    (⟨"7", "Alice", 1, true, 0,
      [⟨"7", "Alice", 1, 1, 1, 0, 0, 0, 0, 0, 0⟩]⟩ : PlayerRotation).total_seconds = 0 :=
  ⟨by decide, rfl⟩


/-! ## C2: stint monotonicity and terminal closure -/

/-- The game-end absolute time is nonnegative. -/
theorem period_end_seconds_nonneg (n : Int) : 0 ≤ period_end_seconds n := by
  unfold period_end_seconds
  have key : ∀ (l : List Nat) (acc : Int), 0 ≤ acc →
      0 ≤ l.foldl (fun acc p => acc + if p ≥ 5 then 300 else 600) acc := by
    intro l
    induction l with
    | nil => intro acc h; exact h
    | cons p rest ih =>
      intro acc h
      rw [List.foldl_cons]
      apply ih
      by_cases hp : p ≥ 5
      · rw [if_pos hp]; omega
      · rw [if_neg hp]; omega
  exact key _ 0 le_rfl

/-- Comparison of two events' absolute times, vacuously true when either
clock fails to parse. -/
def event_time_le (e1 e2 : Event) : Bool :=
  match parse_time_to_seconds e1.game_time e1.period 600,
        parse_time_to_seconds e2.game_time e2.period 600 with
  | .ok t1, .ok t2 => decide (t1 ≤ t2)
  | _, _ => true

/-- An event's absolute time lies in `[0, game_end]` (vacuously true when
its clock fails to parse). -/
def event_time_bounded (game_end : Int) (e : Event) : Bool :=
  match parse_time_to_seconds e.game_time e.period 600 with
  | .ok t => decide (0 ≤ t) && decide (t ≤ game_end)
  | .error _ => true

/-- The event stream's absolute times are nondecreasing in stream order and
lie within the game. -/
def TimeOrdered (game_end : Int) (events : List Event) : Prop :=
  events.Pairwise (fun a b => event_time_le a b = true) ∧
  ∀ e ∈ events, event_time_bounded game_end e = true

/-- Loop invariant for the stint builder: every open entry's time is within
the game and at most every upcoming event time; every emitted stint is
weakly monotone; the dict keys are unique; the on-court and open-stint
dicts hold exactly the same keys. -/
def StintInv (game_end : Int) (st : TeamState) (rest : List Event) : Prop :=
  (∀ kv ∈ st.stint_start, 0 ≤ kv.2.time ∧ kv.2.time ≤ game_end ∧
    ∀ e ∈ rest, ∀ t, parse_time_to_seconds e.game_time e.period 600 = .ok t →
      kv.2.time ≤ t) ∧
  (∀ s ∈ st.stints, s.time_in ≤ s.time_out) ∧
  (st.on_court.map Prod.fst).Nodup ∧
  (st.stint_start.map Prod.fst).Nodup ∧
  (∀ k, (dictGet k st.on_court).isSome ↔ (dictGet k st.stint_start).isSome)

/-- Dropping the head of a time-ordered stream keeps it time-ordered. -/
theorem timeOrdered_tail {game_end : Int} {e : Event} {rest : List Event}
    (h : TimeOrdered game_end (e :: rest)) : TimeOrdered game_end rest :=
  ⟨(List.pairwise_cons.mp h.1).2, fun e' he' => h.2 e' (List.mem_cons_of_mem _ he')⟩

/-- Starter initialization establishes the invariant: open entries at time
0, no stints, unique keys, agreeing dicts. -/
theorem init_team_state_facts (ps : List Player) :
    (init_team_state ps).stints = [] ∧
    (∀ kv ∈ (init_team_state ps).stint_start, kv.2 = ⟨0, 1, 0, 0⟩) ∧
    ((init_team_state ps).on_court.map Prod.fst).Nodup ∧
    ((init_team_state ps).stint_start.map Prod.fst).Nodup ∧
    (∀ k, (dictGet k (init_team_state ps).on_court).isSome ↔
      (dictGet k (init_team_state ps).stint_start).isSome) := by
  have key : ∀ (l : List Player) (st : TeamState),
      st.stints = [] → (∀ kv ∈ st.stint_start, kv.2 = ⟨0, 1, 0, 0⟩) →
      (st.on_court.map Prod.fst).Nodup → (st.stint_start.map Prod.fst).Nodup →
      (∀ k, (dictGet k st.on_court).isSome ↔ (dictGet k st.stint_start).isSome) →
      (l.foldl init_player st).stints = [] ∧
      (∀ kv ∈ (l.foldl init_player st).stint_start, kv.2 = ⟨0, 1, 0, 0⟩) ∧
      ((l.foldl init_player st).on_court.map Prod.fst).Nodup ∧
      ((l.foldl init_player st).stint_start.map Prod.fst).Nodup ∧
      (∀ k, (dictGet k (l.foldl init_player st).on_court).isSome ↔
        (dictGet k (l.foldl init_player st).stint_start).isSome) := by
    intro l
    induction l with
    | nil => intro st h1 h2 h3 h4 h5; exact ⟨h1, h2, h3, h4, h5⟩
    | cons p rest ih =>
      intro st h1 h2 h3 h4 h5
      rw [List.foldl_cons]
      unfold init_player
      by_cases hp : p.is_starter = true
      · rw [if_pos hp]
        refine ih _ h1 ?_ (nodup_keys_dictInsert _ _ _ h3) (nodup_keys_dictInsert _ _ _ h4) ?_
        · intro kv hkv
          rcases mem_dictInsert hkv with h' | h'
          · rw [h']
          · exact h2 kv h'
        · intro k
          rw [dictGet_dictInsert_isSome, dictGet_dictInsert_isSome]
          exact or_congr Iff.rfl (h5 k)
      · rw [if_neg hp]
        exact ih st h1 h2 h3 h4 h5
  exact key ps ⟨[], [], [], 0, 0⟩ rfl (by intro kv h; cases h) List.nodup_nil List.nodup_nil
    (fun k => Iff.rfl)

/-- The substitution dispatch preserves the stint-builder invariant. -/
theorem substitution_step_inv (game_end tno : Int) (rots : List (String × PlayerRotation))
    (st : TeamState) (e : Event) (rest : List Event) (st' : TeamState)
    (h : substitution_step tno rots st e = .ok st')
    (hle : ∀ e' ∈ rest, event_time_le e e' = true)
    (hbe : event_time_bounded game_end e = true)
    (hinv : StintInv game_end st (e :: rest)) :
    StintInv game_end st' rest := by
  obtain ⟨hentries, hstints, hnoc, hnss, hagree⟩ := hinv
  have hentries' : ∀ kv ∈ st.stint_start, 0 ≤ kv.2.time ∧ kv.2.time ≤ game_end ∧
      ∀ e' ∈ rest, ∀ t, parse_time_to_seconds e'.game_time e'.period 600 = .ok t →
        kv.2.time ≤ t :=
    fun kv hkv => ⟨(hentries kv hkv).1, (hentries kv hkv).2.1,
      fun e' he' t ht => (hentries kv hkv).2.2 e' (List.mem_cons_of_mem _ he') t ht⟩
  unfold substitution_step at h
  by_cases hteam : (e.action_type == "substitution" && e.team_number == tno) = true
  · simp only [hteam, if_true, ite_true, Bind.bind, Except.bind] at h
    cases hp : parse_time_to_seconds e.game_time e.period 600 with
    | error m => rw [hp] at h; cases h
    | ok t =>
      rw [hp] at h
      have hbt : 0 ≤ t ∧ t ≤ game_end := by
        unfold event_time_bounded at hbe
        rw [hp] at hbe
        simpa using hbe
      by_cases hout : (e.sub_type == "out" && (dictGet e.shirt_number st.on_court).isSome) = true
      · simp only [hout, if_true, ite_true] at h
        cases hss : dictGet e.shirt_number st.stint_start with
        | none =>
          exfalso
          have h1 : (dictGet e.shirt_number st.on_court).isSome = true := by
            rw [Bool.and_eq_true] at hout
            exact hout.2
          have h2 := (hagree e.shirt_number).mp h1
          rw [hss] at h2
          simp at h2
        | some start =>
          rw [hss] at h
          dsimp only at h
          have hnoc' := nodup_keys_dictErase e.shirt_number _ hnoc
          have hnss' := nodup_keys_dictErase e.shirt_number _ hnss
          have hagree' : ∀ k,
              (dictGet k (dictErase e.shirt_number st.on_court)).isSome ↔
              (dictGet k (dictErase e.shirt_number st.stint_start)).isSome := by
            intro k
            by_cases hk : k = e.shirt_number
            · rw [hk, dictGet_dictErase_self _ _ hnoc, dictGet_dictErase_self _ _ hnss]
              exact Iff.rfl
            · rw [dictGet_dictErase_ne _ _ _ hk, dictGet_dictErase_ne _ _ _ hk]
              exact hagree k
          have hent' : ∀ kv ∈ dictErase e.shirt_number st.stint_start,
              0 ≤ kv.2.time ∧ kv.2.time ≤ game_end ∧
              ∀ e' ∈ rest, ∀ t', parse_time_to_seconds e'.game_time e'.period 600 = .ok t' →
                kv.2.time ≤ t' :=
            fun kv hkv => hentries' kv (mem_dictErase hkv)
          have hnew : start.time ≤ t :=
            (hentries _ (dictGet_mem hss)).2.2 e (List.mem_cons_self _ _) t hp
          by_cases hr : (dictGet e.shirt_number rots).isSome = true
          · rw [if_pos hr] at h
            dsimp only at h
            simp only [pure, Except.pure] at h
            cases h
            refine ⟨hent', ?_, hnoc', hnss', hagree'⟩
            intro s hs
            rcases List.mem_append.mp hs with hs | hs
            · exact hstints s hs
            · rw [List.mem_singleton.mp hs]
              exact hnew
          · rw [if_neg hr] at h
            simp only [pure, Except.pure] at h
            cases h
            exact ⟨hent', hstints, hnoc', hnss', hagree'⟩
      · simp only [hout, if_false, ite_false] at h
        by_cases hin : (e.sub_type == "in") = true
        · simp only [hin, if_true, ite_true, pure, Except.pure] at h
          cases h
          refine ⟨?_, hstints, nodup_keys_dictInsert _ _ _ hnoc,
            nodup_keys_dictInsert _ _ _ hnss, ?_⟩
          · intro kv hkv
            rcases mem_dictInsert hkv with h' | h'
            · rw [h']
              refine ⟨hbt.1, hbt.2, ?_⟩
              intro e' he' t' ht'
              have hl := hle e' he'
              unfold event_time_le at hl
              rw [hp, ht'] at hl
              simpa using hl
            · exact hentries' kv h'
          · intro k
            rw [dictGet_dictInsert_isSome, dictGet_dictInsert_isSome]
            exact or_congr Iff.rfl (hagree k)
        · simp only [hin, if_false, ite_false, pure, Except.pure] at h
          cases h
          exact ⟨hentries', hstints, hnoc, hnss, hagree⟩
  · simp only [hteam, if_false, ite_false, pure, Except.pure] at h
    cases h
    exact ⟨hentries', hstints, hnoc, hnss, hagree⟩


/-- One full loop iteration preserves the stint-builder invariant. -/
theorem rotations_step_inv (game_end tno : Int) (rots : List (String × PlayerRotation))
    (st : TeamState) (e : Event) (rest : List Event) (st' : TeamState)
    (h : rotations_step tno rots st e = .ok st')
    (hle : ∀ e' ∈ rest, event_time_le e e' = true)
    (hbe : event_time_bounded game_end e = true)
    (hinv : StintInv game_end st (e :: rest)) :
    StintInv game_end st' rest := by
  unfold rotations_step at h
  by_cases hs : e.score1 + e.score2 > 0
  · rw [if_pos hs] at h
    exact substitution_step_inv game_end tno rots _ e rest st' h hle hbe hinv
  · rw [if_neg hs] at h
    exact substitution_step_inv game_end tno rots st e rest st' h hle hbe hinv

/-- The invariant holds after folding the whole time-ordered event list. -/
theorem team_fold_inv (game_end tno : Int) (rots : List (String × PlayerRotation))
    (events : List Event) (st st' : TeamState)
    (hfold : events.foldlM (rotations_step tno rots) st = .ok st')
    (hto : TimeOrdered game_end events)
    (hinv : StintInv game_end st events) :
    StintInv game_end st' [] := by
  have key := foldlM_except_invariant (rotations_step tno rots)
    (fun st rest => TimeOrdered game_end rest ∧ StintInv game_end st rest)
    (fun st e rest st' hP hstep =>
      ⟨timeOrdered_tail hP.1,
       rotations_step_inv game_end tno rots st e rest st' hstep
         (fun e' he' => List.rel_of_pairwise_cons hP.1.1 he')
         (hP.1.2 e (List.mem_cons_self _ _)) hP.2⟩)
    events st st' ⟨hto, hinv⟩ hfold
  exact key.2

/-- C2 (amended): when the event stream's absolute times are nondecreasing
and lie within `[0, game_end]`, every stint — emitted or closing — satisfies
`time_in ≤ time_out` (equality is possible: a substitution out at the same
instant as the entry produces a zero-length stint); and every roster player
still recorded on court after the last event gets a closing stint at exactly
the game-end absolute time with the final recorded score as exit score. -/
theorem stints_closed_monotone (game : GameData) (tno : Int) (final : TeamState)
    (hfold : team_fold game tno = .ok final)
    (hto : TimeOrdered (period_end_seconds game.num_periods) game.events) :
    (∀ s ∈ team_all_stints game tno final, s.time_in ≤ s.time_out) ∧
    (∀ k, (dictGet k final.on_court).isSome →
      (dictGet k (build_rotations tno (team_players game tno))).isSome →
      ∃ s ∈ close_open_stints game tno (build_rotations tno (team_players game tno)) final,
        s.shirt_number = k ∧
        s.time_out = period_end_seconds game.num_periods ∧
        s.score_team_out = (current_score_for_team game.final_score1 game.final_score2 tno).1 ∧
        s.score_opp_out = (current_score_for_team game.final_score1 game.final_score2 tno).2) := by
  have hge := period_end_seconds_nonneg game.num_periods
  obtain ⟨hi1, hi2, hi3, hi4, hi5⟩ := init_team_state_facts (team_players game tno)
  have hinv0 : StintInv (period_end_seconds game.num_periods)
      (init_team_state (team_players game tno)) game.events := by
    refine ⟨?_, ?_, hi3, hi4, hi5⟩
    · intro kv hkv
      have hkv0 := hi2 kv hkv
      rw [hkv0]
      refine ⟨le_rfl, hge, ?_⟩
      intro e he t ht
      have hb := hto.2 e he
      unfold event_time_bounded at hb
      rw [ht] at hb
      rw [Bool.and_eq_true] at hb
      simpa using hb.1
    · rw [hi1]
      intro s hs
      cases hs
  have hinv := team_fold_inv (period_end_seconds game.num_periods) tno
    (build_rotations tno (team_players game tno)) game.events _ final hfold hto hinv0
  obtain ⟨hentries, hstints, hnoc, hnss, hagree⟩ := hinv
  constructor
  · intro s hs
    unfold team_all_stints at hs
    rcases List.mem_append.mp hs with hs | hs
    · exact hstints s hs
    · unfold close_open_stints at hs
      rcases List.mem_map.mp hs with ⟨kv, hkv, hs_eq⟩
      have hkv' := List.mem_filter.mp hkv
      have hb := hentries kv hkv'.1
      rw [← hs_eq]
      exact hb.2.1
  · intro k hoc hroster
    have hss := (hagree k).mp hoc
    rw [Option.isSome_iff_exists] at hss
    obtain ⟨info, hinfo⟩ := hss
    refine ⟨closing_stint game tno (build_rotations tno (team_players game tno)) (k, info),
      ?_, rfl, rfl, rfl, rfl⟩
    unfold close_open_stints
    apply List.mem_map.mpr
    refine ⟨(k, info), ?_, rfl⟩
    exact List.mem_filter.mpr ⟨dictGet_mem hinfo, by simpa using hroster⟩


/-- C2 counterexample: a starter substituted out at the very first instant
("10:00" of period 1 is absolute second 0) yields an emitted stint with
`time_in = time_out = 0`, refuting the strict inequality `time_in <
time_out`. -/
theorem zero_length_stint_cex :
    team_rotations gZeroStint 1 =
      .ok [⟨"7", "Alice", 1, true, 0, [⟨"7", "Alice", 1, 1, 1, 0, 0, 0, 0, 0, 0⟩]⟩] ∧
    ¬ ((⟨"7", "Alice", 1, 1, 1, 0, 0, 0, 0, 0, 0⟩ : Stint).time_in <
        (⟨"7", "Alice", 1, 1, 1, 0, 0, 0, 0, 0, 0⟩ : Stint).time_out) :=
  ⟨by decide, by decide⟩

/-- One-period game with a lone starter and no events; the starter stays on
court to the end and the final score is 20-18. -/
def gStarterOnly : GameData := ⟨"gs", "T1", "T2", "A", "B", 20, 18, 1, [pAlice], []⟩

/-- Witness for `stints_closed_monotone` at a concrete game whose lone
starter stays on court to the end. -/
theorem stints_closed_monotone_witness :
    (team_fold gStarterOnly 1 = .ok ⟨[("7", true)], [("7", ⟨0, 1, 0, 0⟩)], [], 0, 0⟩ ∧
     TimeOrdered (period_end_seconds gStarterOnly.num_periods) gStarterOnly.events) ∧
    (∀ s ∈ team_all_stints gStarterOnly 1 ⟨[("7", true)], [("7", ⟨0, 1, 0, 0⟩)], [], 0, 0⟩,
      s.time_in ≤ s.time_out) ∧
    (∀ k, (dictGet k (TeamState.mk [("7", true)] [("7", ⟨0, 1, 0, 0⟩)] [] 0 0).on_court).isSome →
      (dictGet k (build_rotations 1 (team_players gStarterOnly 1))).isSome →
      ∃ s ∈ close_open_stints gStarterOnly 1 (build_rotations 1 (team_players gStarterOnly 1))
          ⟨[("7", true)], [("7", ⟨0, 1, 0, 0⟩)], [], 0, 0⟩,
        s.shirt_number = k ∧
        s.time_out = period_end_seconds gStarterOnly.num_periods ∧
        s.score_team_out =
          (current_score_for_team gStarterOnly.final_score1 gStarterOnly.final_score2 1).1 ∧
        s.score_opp_out =
          (current_score_for_team gStarterOnly.final_score1 gStarterOnly.final_score2 1).2) := by
  have hfold : team_fold gStarterOnly 1 =
      .ok ⟨[("7", true)], [("7", ⟨0, 1, 0, 0⟩)], [], 0, 0⟩ := by decide
  have hto : TimeOrdered (period_end_seconds gStarterOnly.num_periods) gStarterOnly.events :=
    ⟨List.Pairwise.nil, fun e he => absurd he (List.not_mem_nil e)⟩
  have := stints_closed_monotone gStarterOnly 1 _ hfold hto
  exact ⟨⟨hfold, hto⟩, this.1, this.2⟩

end NBL
